import Mathlib

/-!
Shallow embedding of the toonstream-api scraping layer (JavaScript) in Lean 4.

JavaScript strings are embedded as Lean `String`/`List Char`; `null`/`undefined`
and falsy empty strings are embedded as `Option String` (`none` for absent or
empty, mirroring the pervasive `a || b` coalescing in the source).  Network
fetches are embedded as explicit oracles `String → Except String String`
mapping a URL to either the page HTML or an error message (the source
distinguishes errors only by whether the message contains "404").
-/

namespace Toonstream

/-- `listStarts pat l` : does `l` begin with `pat`?  (JS `String.startsWith`). -/
def listStarts : List Char → List Char → Bool
  | [], _ => true
  | _ :: _, [] => false
  | a :: as, b :: bs => a == b && listStarts as bs

/-- `listHas pat l` : does `pat` occur as a contiguous run inside `l`?
(JS `String.includes`). -/
def listHas (pat : List Char) : List Char → Bool
  | [] => listStarts pat []
  | c :: t => listStarts pat (c :: t) || listHas pat t

/-- JS `s.startsWith(pat)`. -/
def strStarts (pat s : String) : Bool := listStarts pat.toList s.toList

/-- JS `s.includes(pat)`. -/
def strHas (pat s : String) : Bool := listHas pat.toList s.toList

/-- JS whitespace test for `\s` (the characters relevant to this code base). -/
def isWs (c : Char) : Bool := c == ' ' || c == '\t' || c == '\n' || c == '\r'

/-- Trim leading/trailing whitespace (JS `String.trim`). -/
def trimChars (l : List Char) : List Char :=
  ((l.dropWhile isWs).reverse.dropWhile isWs).reverse

/-- JS `s.trim()`. -/
def strTrim (s : String) : String := ⟨trimChars s.toList⟩

/-- Merge adjacent duplicate spaces (helper for whitespace collapsing). -/
def squashSpaces : List Char → List Char
  | [] => []
  | [c] => [c]
  | a :: b :: t =>
    if a == ' ' && b == ' ' then squashSpaces (b :: t) else a :: squashSpaces (b :: t)

/-- Collapse every maximal run of whitespace to a single space:
each whitespace character becomes a space, then adjacent spaces merge. -/
def collapseWs (l : List Char) : List Char :=
  squashSpaces (l.map (fun c => if isWs c then ' ' else c))

/-- JS whitespace-collapsing replacement of runs by a single space. -/
def strCollapseWs (s : String) : String := ⟨collapseWs s.toList⟩

/-- JS global replacement of every hyphen by a space, used for the
id-derived title fallbacks. -/
def hyphensToSpaces (s : String) : String :=
  ⟨s.toList.map (fun c => if c == '-' then ' ' else c)⟩

/-- Digit-string to number (JS `parseInt` applied to an all-digit regex group). -/
def natOfDigits (l : List Char) : Nat :=
  l.foldl (fun acc c => acc * 10 + (c.toNat - '0'.toNat)) 0

/-- Split a run of leading decimal digits off a character list. -/
def takeDigits : List Char → List Char × List Char
  | [] => ([], [])
  | c :: t =>
    if c.isDigit then
      let (d, r) := takeDigits t
      (c :: d, r)
    else
      ([], c :: t)

/-- Match the regex `(\d+)x(\d+)` anchored at the head of the list; on success
return the two parsed groups. -/
def matchNxMAt (l : List Char) : Option (Nat × Nat) :=
  let (d1, r1) := takeDigits l
  if d1.isEmpty then none
  else
    match r1 with
    | c :: r2 =>
      if c = 'x' then
        let (d2, _) := takeDigits r2
        if d2.isEmpty then none else some (natOfDigits d1, natOfDigits d2)
      else none
    | [] => none

/-- Leftmost match of `(\d+)x(\d+)` (JS `s.match(/(\d+)x(\d+)/)`, groups parsed). -/
def findNxM : List Char → Option (Nat × Nat)
  | [] => none
  | c :: t =>
    match matchNxMAt (c :: t) with
    | some r => some r
    | none => findNxM t

/-- `findNxM` on a `String`. -/
def strFindNxM (s : String) : Option (Nat × Nat) := findNxM s.toList

/-- Does `l` end in `-\d+x\d+` ?  Anchored-at-end test of the regex
`-\d+x\d+$` used on episode ids. -/
def epSuffixAt (l : List Char) : Bool :=
  match l with
  | '-' :: r =>
    let (d1, r1) := takeDigits r
    if d1.isEmpty then false
    else
      match r1 with
      | 'x' :: r2 =>
        let (d2, r3) := takeDigits r2
        !d2.isEmpty && r3.isEmpty
      | _ => false
  | _ => false

/-- JS test of the end-anchored pattern `-\d+x\d+$` over the whole id. -/
def hasEpSuffixL : List Char → Bool
  | [] => false
  | c :: t => epSuffixAt (c :: t) || hasEpSuffixL t

/-- Episode-slug shape test on a `String`. -/
def hasEpSuffix (s : String) : Bool := hasEpSuffixL s.toList

/-- Anchored match of `-(\d+)x(\d+)$`: parse season/episode groups from the end
of the id (the end-anchored group-capturing variant used on `episodeId`). -/
def epSuffixGroupsAt (l : List Char) : Option (Nat × Nat) :=
  match l with
  | '-' :: r =>
    let (d1, r1) := takeDigits r
    if d1.isEmpty then none
    else
      match r1 with
      | 'x' :: r2 =>
        let (d2, r3) := takeDigits r2
        if !d2.isEmpty && r3.isEmpty then some (natOfDigits d1, natOfDigits d2) else none
      | _ => none
  | _ => none

/-- Leftmost (hence, as the pattern is end-anchored, unique) match of
`-(\d+)x(\d+)$` over the id. -/
def findEpSuffixGroups : List Char → Option (Nat × Nat)
  | [] => none
  | c :: t =>
    match epSuffixGroupsAt (c :: t) with
    | some r => some r
    | none => findEpSuffixGroups t

/-- The configured upstream origin (`config.baseUrl` in `config.js`). -/
def baseUrl : String := "https://toonstream.love"

/-- Embedding of `normalizeImageUrl` (`src/utils/scraper.js`):

```js
if (!url) return null;
if (url.startsWith('http')) return url;
if (url.startsWith('//')) return `https:${url}`;
if (url.startsWith('/')) return `${config.baseUrl}${url}`;
return url;
```

`none` stands for JS `null`/`undefined`; the falsy empty string is kept as
`some ""` on input so the `!url` test can be embedded faithfully. -/
def normalizeImageUrl (url : Option String) : Option String :=
  match url with
  | none => none
  | some u =>
    if u = "" then none
    else if strStarts "http" u then some u
    else if strStarts "//" u then some ("https:" ++ u)
    else if strStarts "/" u then some (baseUrl ++ u)
    else some u

/-- Consume one of the literal alternatives `/series/`, `/movies/`, `/movie/`
at the head of the list; on success return the remainder
(the alternation of the regex `\/(series|movies?)\//`). -/
def matchContentPatAt (l : List Char) : Option (List Char) :=
  if listStarts "/series/".toList l then some (l.drop 8)
  else if listStarts "/movies/".toList l then some (l.drop 8)
  else if listStarts "/movie/".toList l then some (l.drop 7)
  else none

/-- Take the maximal run of non-`/` characters (the greedy `[^\/]+` group). -/
def takeSeg : List Char → List Char × List Char
  | [] => ([], [])
  | c :: t =>
    if c == '/' then ([], c :: t)
    else
      let (s, r) := takeSeg t
      (c :: s, r)

/-- Try the full pattern `\/(series|movies?)\/([^\/]+)` anchored at the head. -/
def animeIdAt (l : List Char) : Option (List Char) :=
  match matchContentPatAt l with
  | none => none
  | some r =>
    let (seg, _) := takeSeg r
    if seg.isEmpty then none else some seg

/-- Leftmost match of the pattern over the whole list. -/
def findAnimeId : List Char → Option (List Char)
  | [] => none
  | c :: t =>
    match animeIdAt (c :: t) with
    | some s => some s
    | none => findAnimeId t

/-- Embedding of `extractAnimeId` (unnamed utils variant, `src/unnamed/part_002`):

```js
if (!url) return null;
const match = url.match(/\/(series|movies?)\/([^\/]+)/);
return match ? match[2] : null;
```
-/
def extractAnimeId (url : Option String) : Option String :=
  match url with
  | none => none
  | some u => if u = "" then none else (findAnimeId u.toList).map (fun l => ⟨l⟩)

/-! ## DOM model

A minimal HTML document model sufficient for the selector/traversal operations
this code base performs through cheerio: tagged elements with attributes and
children, plus text nodes.  Traversals are in document (pre-)order, matching
cheerio result order. -/

/-- An HTML node: element with tag, attributes and children, or a text node. -/
inductive Dom where
  | el (tag : String) (attrs : List (String × String)) (children : List Dom)
  | txt (s : String)

instance : Inhabited Dom := ⟨Dom.txt ""⟩

/-- Tag name of a node (text nodes have none). -/
def tagOf : Dom → String
  | Dom.el t _ _ => t
  | Dom.txt _ => ""

/-- Children of a node. -/
def childrenOf : Dom → List Dom
  | Dom.el _ _ cs => cs
  | Dom.txt _ => []

/-- Attribute lookup (JS `elem.attr(name)`: `none` is `undefined`). -/
def attr (d : Dom) (name : String) : Option String :=
  match d with
  | Dom.el _ attrs _ => (attrs.find? (fun p => p.1 == name)).map (fun p => p.2)
  | Dom.txt _ => none

/-- Empty string to `none` (JS falsy coalescing on strings). -/
def emptyToNone (s : String) : Option String := if s == "" then none else some s

/-- Attribute lookup under JS truthiness: absent and empty both drop out. -/
def attrF (d : Dom) (name : String) : Option String := (attr d name).bind emptyToNone

/-- The `class` attribute, defaulting to the empty string. -/
def className (d : Dom) : String := (attr d "class").getD ""

/-- Split a character list at every separator character (separators dropped,
empty fields kept — the JS `String.split` semantics). -/
def splitFields (p : Char → Bool) : List Char → List (List Char)
  | [] => [[]]
  | c :: t =>
    let r := splitFields p t
    if p c then [] :: r
    else
      match r with
      | [] => [[c]]
      | f :: rest => (c :: f) :: rest

/-- CSS class selector `.w`: the class token list contains the word. -/
def classHasWord (d : Dom) (w : String) : Bool :=
  (splitFields isWs (className d).toList).contains w.toList

/-- CSS substring attribute selector on `class`. -/
def classHasSub (d : Dom) (sub : String) : Bool := strHas sub (className d)

/-- CSS substring attribute selector on `id`. -/
def idHasSub (d : Dom) (sub : String) : Bool := strHas sub ((attr d "id").getD "")

mutual

/-- All strict descendants of a node, in document order (cheerio `find` scope). -/
def descendantsD : Dom → List Dom
  | Dom.el _ _ cs => descendantsL cs
  | Dom.txt _ => []

/-- Nodes of a forest together with their strict descendants, in document order. -/
def descendantsL : List Dom → List Dom
  | [] => []
  | d :: ds => d :: (descendantsD d ++ descendantsL ds)

end

mutual

/-- Concatenated text content of a node (cheerio `.text()`). -/
def textD : Dom → String
  | Dom.el _ _ cs => textL cs
  | Dom.txt s => s

/-- Concatenated text content of a forest. -/
def textL : List Dom → String
  | [] => ""
  | d :: ds => textD d ++ textL ds

end

mutual

/-- Every node of the subtree rooted at `d` paired with its ancestor chain
(outermost first); `anc` is the chain above `d`. -/
def walkD (anc : List Dom) : Dom → List (List Dom × Dom)
  | Dom.el t a cs => (anc, Dom.el t a cs) :: walkL (anc ++ [Dom.el t a cs]) cs
  | Dom.txt s => [(anc, Dom.txt s)]

/-- `walkD` over a forest. -/
def walkL (anc : List Dom) : List Dom → List (List Dom × Dom)
  | [] => []
  | d :: ds => walkD anc d ++ walkL anc ds

end

/-- Strict descendants of `d` paired with ancestor chains that include `d`. -/
def walkChildren (d : Dom) : List (List Dom × Dom) :=
  match d with
  | Dom.el t a cs => walkL [Dom.el t a cs] cs
  | Dom.txt _ => []

/-- Anchor element test (selector `a`). -/
def isAnchor (d : Dom) : Bool := tagOf d == "a"

/-- Case-insensitive prefix test (regex `i` flag). -/
def ciStarts (pat l : List Char) : Bool :=
  listStarts (pat.map Char.toLower) (l.map Char.toLower)

/-- Strip a leading `Image` + whitespace prefix, case-insensitively
(the `^Image\s+` title cleanup). -/
def stripImageLead (l : List Char) : List Char :=
  if ciStarts "image".toList l then
    let r := l.drop 5
    if (r.head?.map isWs).getD false then r.dropWhile isWs else l
  else l

/-- Title cleanup: drop the `Image ` prefix, collapse whitespace, trim. -/
def cleanCardTitle (s : String) : String :=
  ⟨trimChars (collapseWs (stripImageLead s.toList))⟩

/-- Last non-empty `/`-separated path segment of a URL
(JS `url.split('/').filter(Boolean).pop()`), or the empty string. -/
def lastSegOf (u : String) : String :=
  ((((splitFields (fun c => c == '/') u.toList).filter
      (fun s => !s.isEmpty)).getLast?).map (fun l => (⟨l⟩ : String))).getD ""

/-- Leftmost maximal run of characters from the class `[\d.]` (the rating
token regex), if non-empty. -/
def findNumTok : List Char → Option (List Char)
  | [] => none
  | c :: t =>
    if c.isDigit || c == '.' then
      some (c :: t.takeWhile (fun d => d.isDigit || d == '.'))
    else
      findNumTok t

/-- A normalized listing card (`extractAnimeCard` output).  `rating` keeps the
matched numeric token; the source applies `parseFloat` to it only at the JSON
boundary. -/
structure Card where
  id : String
  title : String
  url : String
  poster : Option String
  rating : Option String
deriving DecidableEq

/-- Poster image selectors of `extractAnimeCard`, as ancestor-constraint /
target pairs mirroring `img`, `.poster img`, `.thumbnail img`, `figure img`,
`[class*="image"] img`, `[class*="poster"] img`. -/
def posterAncPreds : List (Option (Dom → Bool)) :=
  [ none,
    some (fun d => classHasWord d "poster"),
    some (fun d => classHasWord d "thumbnail"),
    some (fun d => tagOf d == "figure"),
    some (fun d => classHasSub d "image"),
    some (fun d => classHasSub d "poster") ]

/-- First `img` descendant satisfying an optional ancestor constraint. -/
def firstImgBy (ancPred : Option (Dom → Bool)) (elem : Dom) : Option Dom :=
  ((walkChildren elem).find? (fun pr =>
      tagOf pr.2 == "img" &&
      (match ancPred with
       | none => true
       | some p => pr.1.any p))).map (fun pr => pr.2)

/-- The image-attribute fallback chain `data-src`, `data-lazy-src`, `src`,
`data-original` (first truthy wins). -/
def imgPosterAttr (img : Dom) : Option String :=
  attrF img "data-src" <|> attrF img "data-lazy-src" <|> attrF img "src" <|>
    attrF img "data-original"

/-- The poster-selector loop: first selector whose image yields a truthy
attribute wins. -/
def posterLoop (elem : Dom) : Option String :=
  posterAncPreds.foldl
    (fun acc p =>
      match acc with
      | some v => some v
      | none => (firstImgBy p elem).bind imgPosterAttr)
    none

/-- Title sub-element selector `.title, h2, h3, h4, [class*="title"]`. -/
def isTitleSel (d : Dom) : Bool :=
  classHasWord d "title" || tagOf d == "h2" || tagOf d == "h3" || tagOf d == "h4" ||
    classHasSub d "title"

/-- Rating selector `.rating, .imdb, .tmdb, [class*="rating"], .ribon`. -/
def isRatingSel (d : Dom) : Bool :=
  classHasWord d "rating" || classHasWord d "imdb" || classHasWord d "tmdb" ||
    classHasSub d "rating" || classHasWord d "ribon"

/-- The primary link of a listing node: the node itself when it is an anchor,
otherwise its first anchor descendant (JS
`$element.is('a') ? $element : $element.find('a').first()`). -/
def primaryLink (element : Dom) : Option Dom :=
  if isAnchor element then some element else (descendantsD element).find? isAnchor

/-- The primary link's `href`, defaulting to the empty string. -/
def primaryHref (element : Dom) : String :=
  ((primaryLink element).bind (fun l => attr l "href")).getD ""

/-- Embedding of `extractAnimeCard` (`src/utils/scraper.js`): locate the
primary link; reject category / tag / cast and non-content hrefs; resolve
poster through the selector and attribute fallback chains; resolve and clean
the title; derive the id from the last non-empty path segment; scan for a
rating token; reject an empty id. -/
def extractAnimeCard (element : Dom) : Option Card :=
  let url := primaryHref element
  if url == "" || strHas "/category/" url || strHas "/tag/" url ||
      strHas "/cast_tv/" url || url == "#" ||
      (!strHas "/series/" url && !strHas "/movies/" url && !strHas "/movie/" url) then
    none
  else
    let poster0 := posterLoop element
    let poster1 :=
      match poster0 with
      | some v => some v
      | none => (firstImgBy none element).bind imgPosterAttr
    let poster := normalizeImageUrl poster1
    let img := (descendantsD element).find? (fun d => tagOf d == "img")
    let link := primaryLink element
    let titleRaw :=
      ((img.bind (fun i => attrF i "alt")) <|>
       (img.bind (fun i => attrF i "title")) <|>
       (((descendantsD element).find? isTitleSel).bind
          (fun t => emptyToNone (strTrim (textD t)))) <|>
       (link.bind (fun l => attrF l "title")) <|>
       (link.bind (fun l => emptyToNone (strTrim (textD l))))).getD ""
    let title := cleanCardTitle titleRaw
    let id := lastSegOf url
    let ratingText := strTrim (textL ((descendantsD element).filter isRatingSel))
    let rating := (findNumTok ratingText.toList).map (fun l => (⟨l⟩ : String))
    if id == "" then none
    else
      some
        { id := id,
          title := if title == "" then hyphensToSpaces id else title,
          url := if strStarts "http" url then url else baseUrl ++ url,
          poster := poster,
          rating := rating }

/-- An episode entry (`extractEpisodeInfo` output). -/
structure Episode where
  id : String
  title : String
  url : String
  season : Option Nat
  episode : Option Nat
  releaseDate : Option String
deriving DecidableEq

/-- Release-date selector `.date, time, .release-date`. -/
def isDateSel (d : Dom) : Bool :=
  classHasWord d "date" || tagOf d == "time" || classHasWord d "release-date"

/-- The raw title used by `extractEpisodeInfo` before the id fallback:
`link.text().trim() || link.attr('title') || ''`. -/
def epRawTitle (element : Dom) : String :=
  let link := primaryLink element
  ((link.bind (fun l => emptyToNone (strTrim (textD l)))) <|>
   (link.bind (fun l => attrF l "title"))).getD ""

/-- The raw URL used by `extractEpisodeInfo`: the primary link's href or `''`. -/
def epRawUrl (element : Dom) : String := primaryHref element

/-- Embedding of `extractEpisodeInfo` (`src/utils/scraper.js`): primary link,
title with attribute fallback, id from the last non-empty path segment,
season/episode parsed from the first `(\d+)x(\d+)` match over
`title + ' ' + id`, release date from date-like sub-elements; `none` when the
url or the derived id is empty. -/
def extractEpisodeInfo (element : Dom) : Option Episode :=
  let url := epRawUrl element
  let title := epRawTitle element
  let id := lastSegOf url
  let m := strFindNxM (title ++ " " ++ id)
  let dateText := strTrim (textL ((descendantsD element).filter isDateSel))
  if id == "" || url == "" then none
  else
    some
      { id := id,
        title := if title == "" then hyphensToSpaces id else title,
        url := if strStarts "http" url then url else baseUrl ++ url,
        season := m.map (fun p => p.1),
        episode := m.map (fun p => p.2),
        releaseDate := emptyToNone dateText }

/-! ## Homepage and category listing extraction -/

/-- Selector `ul.post-lst`. -/
def isPostLstUl (d : Dom) : Bool := tagOf d == "ul" && classHasWord d "post-lst"

/-- Selector `ul.post-lst li` over a document: `li` elements having a
`ul.post-lst` ancestor, in document order. -/
def postLstLis (doc : Dom) : List Dom :=
  ((walkD [] doc).filter (fun pr => tagOf pr.2 == "li" && pr.1.any isPostLstUl)).map
    (fun pr => pr.2)

/-- Accumulator of the `scrapeHome` listing loop. -/
structure HomeAcc where
  latestSeries : List Card
  latestMovies : List Card
  processed : List String
deriving DecidableEq

/-- One iteration of the `scrapeHome` loop (`src/scrapers/home.js`): read the
`a.lnk-blk` link, de-duplicate on its last non-empty path segment, extract the
card, then categorize by container class or card URL, capping each bucket at
20 entries. -/
def homeStep (acc : HomeAcc) (li : Dom) : HomeAcc :=
  let liClass := className li
  let link := (descendantsD li).find? (fun d => isAnchor d && classHasWord d "lnk-blk")
  match link.bind (fun l => attrF l "href") with
  | none => acc
  | some url =>
    let id := lastSegOf url
    if id == "" || acc.processed.contains id then acc
    else
      let acc1 : HomeAcc := { acc with processed := id :: acc.processed }
      match extractAnimeCard li with
      | none => acc1
      | some anime =>
        if anime.id == "" then acc1
        else if strHas "type-series" liClass || strHas "/series/" anime.url then
          if acc1.latestSeries.length < 20 then
            { acc1 with latestSeries := acc1.latestSeries ++ [anime] }
          else acc1
        else if strHas "type-movies" liClass || strHas "/movies/" anime.url ||
            strHas "/movie/" anime.url then
          if acc1.latestMovies.length < 20 then
            { acc1 with latestMovies := acc1.latestMovies ++ [anime] }
          else acc1
        else acc1

/-- The de-duplication key of the `scrapeHome` loop: the last non-empty path
segment of the `a.lnk-blk` link's href (not of the card's primary link). -/
def homeDedupKey (li : Dom) : Option String :=
  (((descendantsD li).find? (fun d => isAnchor d && classHasWord d "lnk-blk")).bind
    (fun l => attrF l "href")).map lastSegOf

/-- The `scrapeHome` listing loop over the extracted `li` nodes. -/
def homeListsFromLis (lis : List Dom) : HomeAcc :=
  lis.foldl homeStep ⟨[], [], []⟩

/-- Embedding of the listing portion of `scrapeHome`: the `latestSeries` and
`latestMovies` buckets built from `ul.post-lst li` (the schedule portion of
the route is independent of these buckets and is not needed by any claim). -/
def scrapeHomeLists (doc : Dom) : HomeAcc := homeListsFromLis (postLstLis doc)

/-- One iteration of the `scrapeCategory` card loop (`src/unnamed/part_002`):
extract a card and keep it if its id is truthy and unseen. -/
def catStep (acc : List Card × List String) (li : Dom) : List Card × List String :=
  match extractAnimeCard li with
  | none => acc
  | some anime =>
    if anime.id ≠ "" && !acc.2.contains anime.id then
      (acc.1 ++ [anime], anime.id :: acc.2)
    else acc

/-- The `scrapeCategory` card list built from listing `li` nodes. -/
def scrapeCategoryCards (lis : List Dom) : List Card :=
  (lis.foldl catStep ([], [])).1

/-- `scrapeCategory` results over a whole document (`ul.post-lst li`). -/
def scrapeCategoryCardsDoc (doc : Dom) : List Card :=
  scrapeCategoryCards (postLstLis doc)

/-! ## Detail-page type probing (`scrapeAnimeDetails`, `src/unnamed/part_000`)

The fetch oracle maps a URL path to the page HTML or the error message thrown
by `fetchPage`; the source distinguishes a 404 only by
`error.message.includes('404')`. -/

/-- The 404 test used throughout the source. -/
def is404 (msg : String) : Bool := strHas "404" msg

/-- URL chosen for an explicit type hint (unknown hints default to series). -/
def detailUrl (ty id : String) : String :=
  if ty == "series" then "/series/" ++ id ++ "/"
  else if ty == "movie" then "/movies/" ++ id ++ "/"
  else if ty == "cartoon" then "/cartoons/" ++ id ++ "/"
  else "/series/" ++ id ++ "/"

/-- The auto-detection loop over `['series', 'movies', 'cartoons']`, unrolled:
each probe either succeeds, falls through on a 404, or aborts on any other
error; exhaustion yields the not-found error.  The detected type is
`tryType === 'movies' ? 'movie' : tryType` — only `movies` is singularized, so
a successful cartoons probe yields the *plural* `cartoons`.  Returns the list
of probed URLs alongside the result. -/
def autoProbe (id : String) (fetch : String → Except String String) :
    List String × Except String (String × String) :=
  let u1 := "/series/" ++ id ++ "/"
  let u2 := "/movies/" ++ id ++ "/"
  let u3 := "/cartoons/" ++ id ++ "/"
  match fetch u1 with
  | Except.ok h => ([u1], Except.ok ("series", h))
  | Except.error e1 =>
    if !is404 e1 then ([u1], Except.error e1)
    else
      match fetch u2 with
      | Except.ok h => ([u1, u2], Except.ok ("movie", h))
      | Except.error e2 =>
        if !is404 e2 then ([u1, u2], Except.error e2)
        else
          match fetch u3 with
          | Except.ok h => ([u1, u2, u3], Except.ok ("cartoons", h))
          | Except.error e3 =>
            if !is404 e3 then ([u1, u2, u3], Except.error e3)
            else
              ([u1, u2, u3],
               Except.error ("Content not found: " ++ id ++ " (tried: series, movies, cartoons)"))

/-- Embedding of the URL-probing phase of `scrapeAnimeDetails(id, type)`
(`src/unnamed/part_000`): a supplied type hint is probed first; a 404 there
falls back to the full auto-detection sequence; any other error is re-thrown
at once.  Returns the probed URLs and either `(detectedType, html)` or the
error. -/
def scrapeAnimeDetailsProbe (id : String) (hint : Option String)
    (fetch : String → Except String String) :
    List String × Except String (String × String) :=
  match hint with
  | none => autoProbe id fetch
  | some ty =>
    let u := detailUrl ty id
    match fetch u with
    | Except.ok h => ([u], Except.ok (ty, h))
    | Except.error e =>
      if is404 e then
        let pr := autoProbe id fetch
        (u :: pr.1, pr.2)
      else ([u], Except.error e)

/-! ## Streaming URL-shape probing (`scrapeWithFetch`, `src/scrapers/streaming.js`) -/

/-- Embedding of the URL-probing phase of `scrapeWithFetch(episodeId)`:
episode-slug-shaped ids probe `/episode/` first, others `/series/`; a 404 of
the first probe enters the nested fallback (`/series/` then `/movies/` for
episode-shaped ids, `/movies/` then `/episode/` otherwise) in which *any*
error falls through to the next shape; a non-404 error of the first probe is
re-thrown at once; a fully failed fallback re-throws the last error.
Returns the probed URLs and either `(url, html)` or the error. -/
def scrapeWithFetchProbe (episodeId : String)
    (fetch : String → Except String String) :
    List String × Except String (String × String) :=
  let isEp := hasEpSuffix episodeId
  let sU := "/series/" ++ episodeId ++ "/"
  let mU := "/movies/" ++ episodeId ++ "/"
  let eU := "/episode/" ++ episodeId ++ "/"
  let u1 := if isEp then eU else sU
  match fetch u1 with
  | Except.ok h => ([u1], Except.ok (u1, h))
  | Except.error e1 =>
    if is404 e1 then
      if isEp then
        match fetch sU with
        | Except.ok h => ([u1, sU], Except.ok (sU, h))
        | Except.error _ =>
          match fetch mU with
          | Except.ok h => ([u1, sU, mU], Except.ok (mU, h))
          | Except.error e3 => ([u1, sU, mU], Except.error e3)
      else
        match fetch mU with
        | Except.ok h => ([u1, mU], Except.ok (mU, h))
        | Except.error _ =>
          match fetch eU with
          | Except.ok h => ([u1, mU, eU], Except.ok (eU, h))
          | Except.error e3 => ([u1, mU, eU], Except.error e3)
    else ([u1], Except.error e1)

/-! ## Episode/season grouping (`scrapeAnimeDetails`, `src/unnamed/part_000`) -/

/-- Container selector `[class*="season"], .episodes-list, [id*="season"]`. -/
def isSeasonContainer (d : Dom) : Bool :=
  classHasSub d "season" || classHasWord d "episodes-list" || idHasSub d "season"

/-- Heading selector `[class*="season-title"], h2, h3`. -/
def isSeasonHeading (d : Dom) : Bool :=
  classHasSub d "season-title" || tagOf d == "h2" || tagOf d == "h3"

/-- Match `season\s*(\d+)` (case-insensitive) anchored at the head. -/
def seasonNumAt (l : List Char) : Option Nat :=
  if ciStarts "season".toList l then
    let r := (l.drop 6).dropWhile isWs
    let d := (takeDigits r).1
    if d.isEmpty then none else some (natOfDigits d)
  else none

/-- Leftmost match of `season\s*(\d+)` (case-insensitive), parsed. -/
def findSeasonNum : List Char → Option Nat
  | [] => none
  | c :: t =>
    match seasonNumAt (c :: t) with
    | some n => some n
    | none => findSeasonNum t

/-- Selector `a[href*="/episode/"]`. -/
def isEpAnchor (d : Dom) : Bool :=
  isAnchor d && strHas "/episode/" ((attr d "href").getD "")

/-- Selector `li, .episode-item` used with `closest`. -/
def isClosestSel (d : Dom) : Bool := tagOf d == "li" || classHasWord d "episode-item"

/-- `$(el).closest('li, .episode-item')` with fallback `$(el).parent()`:
the element itself or the nearest matching ancestor, else the parent. -/
def elemToParse (q : List Dom × Dom) : Dom :=
  match (q.2 :: q.1.reverse).find? isClosestSel with
  | some n => n
  | none => (q.1.getLast?).getD q.2

/-- Season containers of a document, with ancestor chains. -/
def seasonContainers (doc : Dom) : List (List Dom × Dom) :=
  (walkD [] doc).filter (fun pr => isSeasonContainer pr.2)

/-- Document-wide episode anchors, with ancestor chains. -/
def docEpisodeAnchors (doc : Dom) : List (List Dom × Dom) :=
  (walkD [] doc).filter (fun pr => isEpAnchor pr.2)

/-- Extract one episode from an anchor's parse element, keeping it only when
its id is truthy (`if (episode && episode.id)`). -/
def epFromAnchor (q : List Dom × Dom) : Option Episode :=
  (extractEpisodeInfo (elemToParse q)).bind
    (fun ep => if ep.id ≠ "" then some ep else none)

/-- Episodes of one season container: season number from the heading (default
1), episode extraction per `/episode/` anchor with the season forced to the
container's number. -/
def containerEpisodes (pr : List Dom × Dom) : Nat × List Episode :=
  let headingText := ((((walkL (pr.1 ++ [pr.2]) (childrenOf pr.2)).map (fun q => q.2)).find?
      isSeasonHeading).map textD).getD ""
  let seasonNum := (findSeasonNum headingText.toList).getD 1
  let eps := (walkL (pr.1 ++ [pr.2]) (childrenOf pr.2)).filterMap (fun q =>
      if isEpAnchor q.2 then (epFromAnchor q).map (fun ep => { ep with season := some seasonNum })
      else none)
  (seasonNum, eps)

/-- Assoc-list update mirroring JS object assignment `seasons[k] = v`
(replaces an existing entry). -/
def upsertReplace (k : Nat) (v : List Episode) :
    List (Nat × List Episode) → List (Nat × List Episode)
  | [] => [(k, v)]
  | (k0, v0) :: t => if k0 == k then (k, v) :: t else (k0, v0) :: upsertReplace k v t

/-- Assoc-list update mirroring `seasons[k] = seasons[k] or []; seasons[k].push(ep)`. -/
def appendAt (k : Nat) (ep : Episode) :
    List (Nat × List Episode) → List (Nat × List Episode)
  | [] => [(k, [ep])]
  | (k0, v0) :: t => if k0 == k then (k0, v0 ++ [ep]) :: t else (k0, v0) :: appendAt k ep t

/-- JS `ep.season || 1` (both a missing and a zero season are falsy). -/
def jsSeasonOf (ep : Episode) : Nat :=
  match ep.season with
  | none => 1
  | some 0 => 1
  | some n => n

/-- Per-container season/episode contributions, in document order. -/
def seasonContrib (doc : Dom) : List (Nat × List Episode) :=
  (seasonContainers doc).map containerEpisodes

/-- The `seasons` object after the container loop: nonempty episode lists
only, a later container with the same season number overwriting the entry. -/
def seasonsMap0 (doc : Dom) : List (Nat × List Episode) :=
  (seasonContrib doc).foldl
    (fun m p => if p.2.isEmpty then m else upsertReplace p.1 p.2 m) []

/-- `allEpisodes` accumulated by the container loop. -/
def allContainerEpisodes (doc : Dom) : List Episode :=
  ((seasonContrib doc).map (fun p => p.2)).flatten

/-- Episodes found by the document-wide fallback anchor scan. -/
def fallbackEpisodes (doc : Dom) : List Episode :=
  (docEpisodeAnchors doc).filterMap epFromAnchor

/-- The fallback grouping of episodes by their own parsed season. -/
def fallbackGrouped (doc : Dom) : List (Nat × List Episode) :=
  (fallbackEpisodes doc).foldl (fun m ep => appendAt (jsSeasonOf ep) ep m) []

/-- The episode/season extraction of `scrapeAnimeDetails`
(`src/unnamed/part_000`, lines 145–198): only for series/cartoons; the season
containers fill `seasons` (nonempty lists only, later duplicates overwriting)
and `allEpisodes`; when no container yielded episodes, a document-wide anchor
scan groups episodes by their own parsed season.  Returns the `seasons`
mapping and `totalEpisodes = allEpisodes.length`. -/
def scrapeSeasons (doc : Dom) (detectedType : String) :
    List (Nat × List Episode) × Nat :=
  if detectedType == "series" || detectedType == "cartoon" then
    if (seasonsMap0 doc).isEmpty then
      (fallbackGrouped doc,
       (allContainerEpisodes doc ++ fallbackEpisodes doc).length)
    else (seasonsMap0 doc, (allContainerEpisodes doc).length)
  else ([], 0)

/-- Total episode count recorded in a seasons mapping. -/
def sumSeasons (m : List (Nat × List Episode)) : Nat :=
  (m.map (fun p => p.2.length)).sum

/-! ## Embed source resolution (`GET /embed/:id`, `src/routes/embed.js`) -/

/-- Modelled from the spec: `decodeHTMLEntities` is imported by
`src/routes/embed.js` from the scraper utils, but its definition is not among
the sources; the spec only requires "decoding HTML entities" of extracted
iframe URLs.  Decode the ampersand entities that occur in such URLs. -/
def decodeEntitiesL : List Char → List Char
  | [] => []
  | '&' :: 'a' :: 'm' :: 'p' :: ';' :: t => '&' :: decodeEntitiesL t
  | '&' :: '#' :: '0' :: '3' :: '8' :: ';' :: t => '&' :: decodeEntitiesL t
  | '&' :: '#' :: '3' :: '8' :: ';' :: t => '&' :: decodeEntitiesL t
  | c :: t => c :: decodeEntitiesL t

/-- `decodeHTMLEntities` on a `String` (see `decodeEntitiesL`). -/
def decodeHTMLEntities (s : String) : String := ⟨decodeEntitiesL s.toList⟩

/-- After a quote character, capture `[^"']+` followed by a quote. -/
def parseQuoted : List Char → Option (List Char)
  | [] => none
  | q :: t =>
    if q == '"' || q == '\'' then
      let cap := t.takeWhile (fun c => c ≠ '"' && c ≠ '\'')
      match t.drop cap.length with
      | q2 :: _ =>
        if (q2 == '"' || q2 == '\'') && !cap.isEmpty then some cap else none
      | [] => none
    else none

/-- Scan inside an `<iframe` tag (stopping at `>`) for `attr=` followed by a
quoted value; `gap` counts the consumed characters, the regex `[^>]+` requiring
at least one before the attribute. -/
def scanIframeAttr (attrEq : List Char) (gap : Nat) : List Char → Option (List Char)
  | [] => none
  | c :: t =>
    if c == '>' then none
    else if gap > 0 && ciStarts attrEq (c :: t) then
      match parseQuoted ((c :: t).drop attrEq.length) with
      | some cap => some cap
      | none => scanIframeAttr attrEq (gap + 1) t
    else scanIframeAttr attrEq (gap + 1) t

/-- Leftmost match of the regex extracting `<iframe ... attr="...">` values
(case-insensitive, quote-delimited, tag must not close before the attribute). -/
def findIframeCapture (attrName : String) : List Char → Option (List Char)
  | [] => none
  | c :: t =>
    match (if ciStarts "<iframe".toList (c :: t) then
             scanIframeAttr (attrName ++ "=").toList 0 ((c :: t).drop 7)
           else none) with
    | some cap => some cap
    | none => findIframeCapture attrName t

/-- A streaming source entry as produced by strategy A. -/
structure StreamSource where
  type : String
  url : String
  quality : String
deriving DecidableEq

/-- Scheme normalization applied to extracted iframe URLs in the embed route:
protocol-relative → https, root-relative → the upstream origin, http → https. -/
def normalizeEmbedUrl (u : String) : String :=
  if strStarts "//" u then "https:" ++ u
  else if strStarts "/" u then "https://toonstream.one" ++ u
  else if strStarts "http://" u then "https://" ++ (u.drop 7)
  else u

/-- Embedding of `fetchSource` (`src/routes/embed.js`): a direct source URL
(neither a `trembed` redirect nor a `toonstream.one/home` URL) resolves
immediately with no fetch; otherwise the redirect page is fetched and its
iframe URL extracted (`data-src` before `src`), entity-decoded and
scheme-normalized, with `vidstreaming.xyz` results rejected.  The second
component counts network fetches (0 or 1). -/
def fetchSource (net : String → Except String String) (source : StreamSource) :
    Except String String × Nat :=
  let sourceUrl := source.url
  if !strHas "trembed" sourceUrl && !strHas "toonstream.one/home" sourceUrl then
    (Except.ok sourceUrl, 0)
  else
    match net sourceUrl with
    | Except.error e => (Except.error e, 1)
    | Except.ok body =>
      let raw :=
        match findIframeCapture "data-src" body.toList with
        | some cap => some cap
        | none => findIframeCapture "src" body.toList
      match raw with
      | none => (Except.error "No iframe found in source", 1)
      | some cap =>
        let u := normalizeEmbedUrl (decodeHTMLEntities ⟨cap⟩)
        if strHas "vidstreaming.xyz" u then
          (Except.error "Skipping vidstreaming.xyz (disabled)", 1)
        else (Except.ok u, 1)

/-- Deterministic rendering of `Promise.any`: some fulfilled candidate wins
(here the first in list order), and only when every candidate rejects does the
race reject with the aggregated errors. -/
def raceAny : List (Except String String) → Except (List String) String
  | [] => Except.error []
  | Except.ok v :: _ => Except.ok v
  | Except.error e :: rest =>
    match raceAny rest with
    | Except.ok v => Except.ok v
    | Except.error es => Except.error (e :: es)

/-- The embed cache key `embed:{id}:{type}`. -/
def embedCacheKey (id ty : String) : String := "embed:" ++ id ++ ":" ++ ty

/-- The candidate bound: `allSources.slice(0, 5)`. -/
def activeSources (sources : List StreamSource) : List StreamSource := sources.take 5

/-- Outcome of the embed episode-path resolution: the resolved iframe URL or
the thrown error, the updated cache, and the number of candidate network
fetches performed. -/
structure EmbedResult where
  outcome : Except String String
  cache : List (String × String)
  netCalls : Nat

/-- Embedding of the episode path of `GET /embed/:id` (`src/routes/embed.js`):
the cache is read first and a hit is served with no fetching; otherwise the
episode's sources (strategy A output) race through `fetchSource` with at most
5 candidates; a winner is cached under `embed:{id}:{type}`; a fully failed
race throws the aggregate no-working-source error; an empty sources list
throws the no-source error. -/
def resolveEmbedEpisode (id ty : String) (cache : List (String × String))
    (sources : List StreamSource) (net : String → Except String String) :
    EmbedResult :=
  let key := embedCacheKey id ty
  match (cache.find? (fun p => p.1 == key)).map (fun p => p.2) with
  | some v => ⟨Except.ok v, cache, 0⟩
  | none =>
    if sources.isEmpty then
      ⟨Except.error "No working video source found for this content", cache, 0⟩
    else
      let attempts := (activeSources sources).map (fetchSource net)
      let calls := (attempts.map (fun a => a.2)).sum
      match raceAny (attempts.map (fun a => a.1)) with
      | Except.ok u => ⟨Except.ok u, (key, u) :: cache, calls⟩
      | Except.error _ =>
        ⟨Except.error "No working video source found (all attempts failed)", cache, calls⟩

/-! ## Concrete fixtures used by counterexamples and witnesses -/

/-- A listing item linking to `/series/foo/`. -/
def seriesLi : Dom :=
  Dom.el "li" [] [Dom.el "a" [("href", "/series/foo/")] [Dom.txt "Foo Show"]]

/-- A listing item linking to `/category/bar/`. -/
def categoryLi : Dom :=
  Dom.el "li" [] [Dom.el "a" [("href", "/category/bar/")] [Dom.txt "Bar"]]

/-- A listing page with one series link and one category link. -/
def listingScenarioDoc : Dom :=
  Dom.el "html" [] [Dom.el "ul" [("class", "post-lst")] [seriesLi, categoryLi]]

/-- A listing item whose primary anchor href contains both a content pattern
and the `/genre/` taxonomy prefix. -/
def genreNode : Dom :=
  Dom.el "li" [] [Dom.el "a" [("href", "/series/foo/genre/bar/")] [Dom.txt "X"]]

/-- A homepage listing item whose first anchor (used by the card extractor)
links to `/series/dup/` while its `a.lnk-blk` overlay (used by the dedup key)
links to a per-item slug. -/
def dupLi (slug : String) : Dom :=
  Dom.el "li" []
    [Dom.el "a" [("href", "/series/dup/")] [Dom.txt "Dup"],
     Dom.el "a" [("class", "lnk-blk"), ("href", "/series/" ++ slug ++ "/")] []]

/-- A homepage with two items sharing the card id `dup` but carrying distinct
`lnk-blk` slugs. -/
def dupHomeDoc : Dom :=
  Dom.el "html" [] [Dom.el "ul" [("class", "post-lst")] [dupLi "one", dupLi "two"]]

/-- An episode list item for the given slug. -/
def episodeLi (s : String) : Dom :=
  Dom.el "li" []
    [Dom.el "a" [("href", "/episode/" ++ s ++ "/")] [Dom.txt (hyphensToSpaces s)]]

/-- A season container labelled with the given heading, holding one episode. -/
def seasonCont (heading slug : String) : Dom :=
  Dom.el "div" [("class", "season")]
    [Dom.el "h2" [] [Dom.txt heading], Dom.el "ul" [] [episodeLi slug]]

/-- A detail page with two season containers that both resolve to season 1. -/
def seasonsDupDoc : Dom :=
  Dom.el "html" [] [seasonCont "Season 1" "show-1x1", seasonCont "Season 1" "show-1x2"]

/-- A detail page with two season containers with distinct season numbers. -/
def seasonsDistinctDoc : Dom :=
  Dom.el "html" [] [seasonCont "Season 1" "show-1x1", seasonCont "Season 2" "show-2x1"]

/-- A `trembed` redirect source whose page embeds the dead provider. -/
def srcTrembedDead : StreamSource :=
  ⟨"iframe", "https://toonstream.one/?trembed=1&trid=2", "default"⟩

/-- A `trembed` redirect source whose page contains no iframe. -/
def srcTrembedEmpty : StreamSource :=
  ⟨"iframe", "https://toonstream.one/?trembed=2&trid=2", "default"⟩

/-- A direct player source. -/
def srcDirect : StreamSource := ⟨"iframe", "https://short.icu/abc", "default"⟩

/-- Network oracle for the embed scenario: the first redirect page embeds
`vidstreaming.xyz`, the second has no iframe, everything else times out. -/
def embedNet : String → Except String String := fun u =>
  if u == "https://toonstream.one/?trembed=1&trid=2" then
    Except.ok "<html><iframe class=z data-src=\"//vidstreaming.xyz/v/9\"></iframe></html>"
  else if u == "https://toonstream.one/?trembed=2&trid=2" then
    Except.ok "<html>none</html>"
  else Except.error "timeout of 4000ms exceeded"

/-- Detail-probe oracle: `/series/naruto/` is a 404, `/movies/naruto/` exists. -/
def detailNet : String → Except String String := fun u =>
  if u == "/series/naruto/" then
    Except.error "Failed to fetch page: HTTP error! status: 404"
  else if u == "/movies/naruto/" then Except.ok "MOVIEHTML"
  else Except.error "Failed to fetch page: HTTP error! status: 500"

/-- Streaming-probe oracle: `/series/m1/` is a 404, `/movies/m1/` fails with a
non-404 server error, `/episode/m1/` exists. -/
def streamNet500 : String → Except String String := fun u =>
  if u == "/series/m1/" then
    Except.error "Failed to fetch page: HTTP error! status: 404"
  else if u == "/movies/m1/" then
    Except.error "Failed to fetch page: HTTP error! status: 500"
  else if u == "/episode/m1/" then Except.ok "EPHTML"
  else Except.error "Failed to fetch page: HTTP error! status: 502"

/-- Streaming-probe oracle for the witness: the episode URL exists at once. -/
def streamNetOk : String → Except String String := fun u =>
  if u == "/episode/show-1x1/" then Except.ok "EPHTML"
  else Except.error "Failed to fetch page: HTTP error! status: 404"

/-- A listing item whose only anchor is a pure taxonomy link. -/
def genreOnlyLi : Dom :=
  Dom.el "li" [] [Dom.el "a" [("href", "/genre/action/")] [Dom.txt "X"]]

/-- The card extracted from `seriesLi`. -/
def fooCard : Card :=
  ⟨"foo", "Foo Show", "https://toonstream.love/series/foo/", none, none⟩

/-- A homepage item whose only anchor is the `a.lnk-blk` overlay, so the dedup
key and the card id coincide. -/
def homeGoodLi : Dom :=
  Dom.el "li" []
    [Dom.el "a" [("class", "lnk-blk"), ("href", "/series/foo/")] [Dom.txt "Foo"]]

/-- An episode node whose title carries the `1x17` pattern. -/
def epNodeTitle : Dom :=
  Dom.el "li" [] [Dom.el "a" [("href", "/episode/foo/")] [Dom.txt "Naruto 1x17"]]

/-- An episode node whose id carries the `1x17` pattern. -/
def epNodeId : Dom := episodeLi "naruto-1x17"

/-- An episode node with no `NxM` pattern in title or id. -/
def epNodePlain : Dom :=
  Dom.el "li" [] [Dom.el "a" [("href", "/episode/foo/")] [Dom.txt "Naruto"]]

/-! ## Shared helper lemmas -/

instance : DecidableEq (Except String String) := fun x y =>
  match x, y with
  | Except.ok a, Except.ok b =>
    if h : a = b then isTrue (by rw [h]) else isFalse (fun hh => h (Except.ok.inj hh))
  | Except.error a, Except.error b =>
    if h : a = b then isTrue (by rw [h]) else isFalse (fun hh => h (Except.error.inj hh))
  | Except.ok _, Except.error _ => isFalse (fun hh => Except.noConfusion hh)
  | Except.error _, Except.ok _ => isFalse (fun hh => Except.noConfusion hh)

instance : DecidableEq (Except String (String × String)) := fun x y =>
  match x, y with
  | Except.ok a, Except.ok b =>
    if h : a = b then isTrue (by rw [h]) else isFalse (fun hh => h (Except.ok.inj hh))
  | Except.error a, Except.error b =>
    if h : a = b then isTrue (by rw [h]) else isFalse (fun hh => h (Except.error.inj hh))
  | Except.ok _, Except.error _ => isFalse (fun hh => Except.noConfusion hh)
  | Except.error _, Except.ok _ => isFalse (fun hh => Except.noConfusion hh)

lemma starts_cons_inv {a : Char} {p l : List Char} (h : listStarts (a :: p) l = true) :
    ∃ t, l = a :: t ∧ listStarts p t = true := by
  cases l with
  | nil => simp [listStarts] at h
  | cons b t =>
    simp [listStarts] at h
    exact ⟨t, by simp [h.1], h.2⟩

lemma fetchSource_calls_le (net : String → Except String String) (s : StreamSource) :
    (fetchSource net s).2 ≤ 1 := by
  unfold fetchSource
  dsimp only
  split
  · exact Nat.zero_le 1
  · cases net s.url with
    | error e => exact Nat.le_refl 1
    | ok body =>
      dsimp only
      split
      · exact Nat.le_refl 1
      · split
        · exact Nat.le_refl 1
        · exact Nat.le_refl 1

lemma homeStep_series_le (acc : HomeAcc) (li : Dom) (h : acc.latestSeries.length ≤ 20) :
    (homeStep acc li).latestSeries.length ≤ 20 := by
  unfold homeStep
  cases hlink : (List.find? (fun d => isAnchor d && classHasWord d "lnk-blk")
      (descendantsD li)).bind (fun l => attrF l "href") with
  | none => simp only [hlink]; exact h
  | some url =>
    simp only [hlink]
    split
    · exact h
    · cases hcard : extractAnimeCard li with
      | none => simp only [hcard]; exact h
      | some anime =>
        simp only [hcard]
        split_ifs <;> first
          | exact h
          | (simp_all [List.length_append]; omega)

lemma homeStep_movies_le (acc : HomeAcc) (li : Dom) (h : acc.latestMovies.length ≤ 20) :
    (homeStep acc li).latestMovies.length ≤ 20 := by
  unfold homeStep
  cases hlink : (List.find? (fun d => isAnchor d && classHasWord d "lnk-blk")
      (descendantsD li)).bind (fun l => attrF l "href") with
  | none => simp only [hlink]; exact h
  | some url =>
    simp only [hlink]
    split
    · exact h
    · cases hcard : extractAnimeCard li with
      | none => simp only [hcard]; exact h
      | some anime =>
        simp only [hcard]
        split_ifs <;> first
          | exact h
          | (simp_all [List.length_append]; omega)

lemma sum_snd_le_length (l : List (Except String String × Nat))
    (h : ∀ x ∈ l, x.2 ≤ 1) : (l.map (fun a => a.2)).sum ≤ l.length := by
  induction l with
  | nil => simp
  | cons x t ih =>
    simp only [List.map_cons, List.sum_cons, List.length_cons]
    have hx := h x (List.mem_cons_self x t)
    have ht := ih (fun y hy => h y (List.mem_cons_of_mem x hy))
    omega

lemma raceAny_all_err (rs : List (Except String String))
    (h : ∀ r ∈ rs, ∃ e, r = Except.error e) : ∃ es, raceAny rs = Except.error es := by
  induction rs with
  | nil => exact ⟨[], rfl⟩
  | cons r t ih =>
    obtain ⟨e, he⟩ := h r (List.mem_cons_self r t)
    subst he
    obtain ⟨es, hes⟩ := ih (fun y hy => h y (List.mem_cons_of_mem _ hy))
    exact ⟨e :: es, by simp [raceAny, hes]⟩

/-! ## Claim theorems -/

/-- C8: `normalizeImageUrl` maps null/empty input to null, returns inputs
starting with `http` unchanged, prefixes `https:` to protocol-relative inputs,
prefixes the configured base origin to root-relative inputs, and returns every
other input unchanged. -/
theorem claim8_normalizeImageUrl :
    normalizeImageUrl none = none ∧
    normalizeImageUrl (some "") = none ∧
    (∀ u : String, strStarts "http" u = true → normalizeImageUrl (some u) = some u) ∧
    (∀ u : String, strStarts "//" u = true →
        normalizeImageUrl (some u) = some ("https:" ++ u)) ∧
    (∀ u : String, strStarts "/" u = true → strStarts "//" u = false →
        normalizeImageUrl (some u) = some (baseUrl ++ u)) ∧
    (∀ u : String, u ≠ "" → strStarts "http" u = false → strStarts "/" u = false →
        normalizeImageUrl (some u) = some u) := by
  refine ⟨rfl, by decide, ?_, ?_, ?_, ?_⟩
  · intro u h
    have hne : u ≠ "" := by
      intro e
      subst e
      exact absurd h (by decide)
    simp [normalizeImageUrl, hne, h]
  · intro u h
    obtain ⟨t, ht, _⟩ := starts_cons_inv (by simpa [strStarts] using h)
    have hne : u ≠ "" := by
      intro e
      rw [e] at ht
      simp at ht
    have hhttp : strStarts "http" u = false := by
      simp [strStarts, ht, listStarts]
    simp [normalizeImageUrl, hne, hhttp, h]
  · intro u h h2
    obtain ⟨t, ht, _⟩ := starts_cons_inv (by simpa [strStarts] using h)
    have hne : u ≠ "" := by
      intro e
      rw [e] at ht
      simp at ht
    have hhttp : strStarts "http" u = false := by
      simp [strStarts, ht, listStarts]
    simp [normalizeImageUrl, hne, hhttp, h, h2]
  · intro u hne h1 h2
    have h3 : strStarts "//" u = false := by
      cases h4 : strStarts "//" u with
      | false => rfl
      | true =>
        obtain ⟨t, ht, _⟩ := starts_cons_inv (by simpa [strStarts] using h4)
        simp [strStarts, ht, listStarts] at h2
    simp [normalizeImageUrl, hne, h1, h2, h3]

/-- Witness for C8 at the spec's own examples. -/
theorem claim8_normalizeImageUrl_witness :
    normalizeImageUrl (some "//img.example/x.png") = some "https://img.example/x.png" ∧
    normalizeImageUrl (some "/x.png") = some (baseUrl ++ "/x.png") ∧
    normalizeImageUrl (some "https://a/b.png") = some "https://a/b.png" ∧
    normalizeImageUrl (some "x.png") = some "x.png" := by
  refine ⟨?_, ?_, ?_, ?_⟩
  · exact claim8_normalizeImageUrl.2.2.2.1 "//img.example/x.png" (by decide)
  · exact claim8_normalizeImageUrl.2.2.2.2.1 "/x.png" (by decide) (by decide)
  · exact claim8_normalizeImageUrl.2.2.1 "https://a/b.png" (by decide)
  · exact claim8_normalizeImageUrl.2.2.2.2.2 "x.png" (by decide) (by decide) (by decide)

/-- C10: the homepage scrape returns at most 20 cards in each of
`latestSeries` and `latestMovies`, for every document. -/
theorem claim10_home_caps (doc : Dom) :
    (scrapeHomeLists doc).latestSeries.length ≤ 20 ∧
    (scrapeHomeLists doc).latestMovies.length ≤ 20 := by
  suffices h : ∀ (lis : List Dom) (acc : HomeAcc),
      acc.latestSeries.length ≤ 20 → acc.latestMovies.length ≤ 20 →
      (lis.foldl homeStep acc).latestSeries.length ≤ 20 ∧
      (lis.foldl homeStep acc).latestMovies.length ≤ 20 by
    exact h (postLstLis doc) ⟨[], [], []⟩ (by simp) (by simp)
  intro lis
  induction lis with
  | nil => intro acc h1 h2; exact ⟨h1, h2⟩
  | cons li t ih =>
    intro acc h1 h2
    exact ih (homeStep acc li) (homeStep_series_le acc li h1) (homeStep_movies_le acc li h2)

/-- C3: the embed resolver consults the cache before any network activity and
serves a hit with zero fetches; it attempts at most 5 candidate sources (and
hence at most 5 candidate fetches); a candidate resolved through the
redirect-page extraction branch never yields a `vidstreaming.xyz` URL; a race
in which every attempted candidate fails surfaces the aggregate
no-working-source error; and a successful resolution is stored in the cache
under the embed key. -/
theorem claim3_embed_resolution :
    (∀ (id ty : String) (cache : List (String × String)) (sources : List StreamSource)
        (net : String → Except String String) (kv : String × String),
        cache.find? (fun p => p.1 == embedCacheKey id ty) = some kv →
        (resolveEmbedEpisode id ty cache sources net).outcome = Except.ok kv.2 ∧
        (resolveEmbedEpisode id ty cache sources net).netCalls = 0 ∧
        (resolveEmbedEpisode id ty cache sources net).cache = cache) ∧
    (∀ sources : List StreamSource, (activeSources sources).length ≤ 5) ∧
    (∀ (id ty : String) (cache : List (String × String)) (sources : List StreamSource)
        (net : String → Except String String),
        (resolveEmbedEpisode id ty cache sources net).netCalls ≤ 5) ∧
    (∀ (net : String → Except String String) (s : StreamSource) (u : String),
        (strHas "trembed" s.url = true ∨ strHas "toonstream.one/home" s.url = true) →
        (fetchSource net s).1 = Except.ok u →
        strHas "vidstreaming.xyz" u = false) ∧
    (∀ (id ty : String) (cache : List (String × String)) (sources : List StreamSource)
        (net : String → Except String String),
        cache.find? (fun p => p.1 == embedCacheKey id ty) = none →
        sources ≠ [] →
        (∀ s ∈ activeSources sources, ∃ e, (fetchSource net s).1 = Except.error e) →
        (resolveEmbedEpisode id ty cache sources net).outcome =
          Except.error "No working video source found (all attempts failed)") ∧
    (∀ (id ty : String) (cache : List (String × String)) (sources : List StreamSource)
        (net : String → Except String String) (u : String),
        cache.find? (fun p => p.1 == embedCacheKey id ty) = none →
        (resolveEmbedEpisode id ty cache sources net).outcome = Except.ok u →
        (((resolveEmbedEpisode id ty cache sources net).cache.find?
            (fun p => p.1 == embedCacheKey id ty)).map (fun p => p.2)) = some u) := by
  refine ⟨?_, ?_, ?_, ?_, ?_, ?_⟩
  · intro id ty cache sources net kv h
    simp [resolveEmbedEpisode, h]
  · intro sources
    simp [activeSources]
  · intro id ty cache sources net
    have hsum : (((activeSources sources).map (fetchSource net)).map (fun a => a.2)).sum ≤
        ((activeSources sources).map (fetchSource net)).length := by
      refine sum_snd_le_length _ ?_
      intro x hx
      obtain ⟨s, _, hs⟩ := List.mem_map.mp hx
      rw [← hs]
      exact fetchSource_calls_le net s
    have hlen : ((activeSources sources).map (fetchSource net)).length ≤ 5 := by
      simp [activeSources]
    have hb : (((activeSources sources).map (fetchSource net)).map (fun a => a.2)).sum ≤ 5 :=
      Nat.le_trans hsum hlen
    unfold resolveEmbedEpisode
    cases h : (List.find? (fun p => p.1 == embedCacheKey id ty) cache).map (fun p => p.2) with
    | some v => simp [h]
    | none =>
      simp only [h]
      try dsimp only
      split
      · simp
      · split
        · simpa using hb
        · simpa using hb
  · intro net s u hbranch hok
    unfold fetchSource at hok
    try dsimp only at hok
    have hcond : ¬ ((!strHas "trembed" s.url && !strHas "toonstream.one/home" s.url) = true) := by
      rcases hbranch with h | h <;> simp [h]
    rw [if_neg hcond] at hok
    cases hnet : net s.url with
    | error e => rw [hnet] at hok; simp at hok
    | ok body =>
      rw [hnet] at hok
      dsimp only at hok
      split at hok
      · simp at hok
      · split at hok
        · simp at hok
        · rename_i hvid
          simp only [Except.ok.injEq] at hok
          rw [← hok]
          simpa using hvid
  · intro id ty cache sources net hmiss hne hall
    have : ∀ r ∈ ((activeSources sources).map (fetchSource net)).map (fun a => a.1),
        ∃ e, r = Except.error e := by
      intro r hr
      obtain ⟨a, ha, har⟩ := List.mem_map.mp hr
      obtain ⟨s, hs, hsa⟩ := List.mem_map.mp ha
      obtain ⟨e, he⟩ := hall s hs
      exact ⟨e, by rw [← har, ← hsa]; exact he⟩
    obtain ⟨es, hes⟩ := raceAny_all_err _ this
    unfold resolveEmbedEpisode
    dsimp only
    rw [hmiss]
    dsimp only [Option.map_none']
    rw [if_neg (by simpa [List.isEmpty_iff] using hne)]
    rw [hes]
  · intro id ty cache sources net u hmiss hok
    unfold resolveEmbedEpisode at hok ⊢
    dsimp only at hok ⊢
    rw [hmiss] at hok ⊢
    dsimp only [Option.map_none'] at hok ⊢
    cases hemp : sources.isEmpty with
    | true =>
      rw [if_pos hemp] at hok
      simp at hok
    | false =>
      rw [if_neg (by simp [hemp])] at hok ⊢
      cases hr : raceAny (((activeSources sources).map (fetchSource net)).map (fun a => a.1)) with
      | ok w =>
        rw [hr] at hok
        dsimp only at hok ⊢
        simp only [Except.ok.injEq] at hok
        simp [hok]
      | error es =>
        rw [hr] at hok
        dsimp only at hok
        simp at hok

/-- Witness for C3: the embed scenario with a dead-provider redirect, an
empty redirect and a direct source; plus a cache hit, plus an all-fail race. -/
theorem claim3_embed_resolution_witness :
    (resolveEmbedEpisode "show-1x1" "auto" [("embed:show-1x1:auto", "X")]
        [srcTrembedDead] embedNet).outcome = Except.ok "X" ∧
    strHas "vidstreaming.xyz" "https://short.icu/abc" = false ∧
    (resolveEmbedEpisode "show-1x1" "auto" []
        [srcTrembedDead, srcTrembedEmpty] embedNet).outcome =
      Except.error "No working video source found (all attempts failed)" ∧
    (((resolveEmbedEpisode "show-1x1" "auto" []
        [srcTrembedDead, srcTrembedEmpty, srcDirect] embedNet).cache.find?
          (fun p => p.1 == embedCacheKey "show-1x1" "auto")).map (fun p => p.2)) =
      some "https://short.icu/abc" := by
  refine ⟨?_, ?_, ?_, ?_⟩
  · exact (claim3_embed_resolution.1 "show-1x1" "auto" [("embed:show-1x1:auto", "X")]
      [srcTrembedDead] embedNet ("embed:show-1x1:auto", "X") (by decide)).1
  · have h2 := claim3_embed_resolution.2.2.2.1 embedNet srcDirect "https://short.icu/abc"
    exact by decide
  · exact claim3_embed_resolution.2.2.2.2.1 "show-1x1" "auto" []
      [srcTrembedDead, srcTrembedEmpty] embedNet rfl (by decide)
      (by
        intro s hs
        simp [activeSources] at hs
        rcases hs with h | h <;> subst h
        · exact ⟨"Skipping vidstreaming.xyz (disabled)", by decide⟩
        · exact ⟨"No iframe found in source", by decide⟩)
  · exact claim3_embed_resolution.2.2.2.2.2 "show-1x1" "auto" []
      [srcTrembedDead, srcTrembedEmpty, srcDirect] embedNet "https://short.icu/abc"
      rfl (by decide)

/-- C7 counterexample: a node whose primary anchor href contains the `/genre/`
taxonomy prefix (alongside a content pattern) is *not* rejected by
`extractAnimeCard` — the source checks `/category/`, `/tag/`, `/cast_tv/` but
not `/genre/`. -/
theorem claim7_genre_counterexample :
    strHas "/genre/" (primaryHref genreNode) = true ∧
    extractAnimeCard genreNode ≠ none := by
  exact ⟨by decide, by decide⟩

/-- C7 (amended): hrefs containing `/category/`, `/tag/` or `/cast_tv/` are
rejected; an href containing `/genre/` is rejected only when it carries no
content pattern (`/series/`, `/movies/`, `/movie/`); and the two-item listing
scenario yields exactly the one card `foo`. -/
theorem claim7_taxonomy_exclusions :
    (∀ node : Dom, strHas "/category/" (primaryHref node) = true →
        extractAnimeCard node = none) ∧
    (∀ node : Dom, strHas "/tag/" (primaryHref node) = true →
        extractAnimeCard node = none) ∧
    (∀ node : Dom, strHas "/cast_tv/" (primaryHref node) = true →
        extractAnimeCard node = none) ∧
    (∀ node : Dom,
        strHas "/genre/" (primaryHref node) = true →
        strHas "/series/" (primaryHref node) = false →
        strHas "/movies/" (primaryHref node) = false →
        strHas "/movie/" (primaryHref node) = false →
        extractAnimeCard node = none) ∧
    (scrapeCategoryCardsDoc listingScenarioDoc).map (fun c => c.id) = ["foo"] := by
  refine ⟨?_, ?_, ?_, ?_, by decide⟩
  · intro node h
    unfold extractAnimeCard
    rw [if_pos (by simp [h])]
  · intro node h
    unfold extractAnimeCard
    rw [if_pos (by simp [h])]
  · intro node h
    unfold extractAnimeCard
    rw [if_pos (by simp [h])]
  · intro node _ h2 h3 h4
    unfold extractAnimeCard
    rw [if_pos (by simp [h2, h3, h4])]

/-- Witness for C7 (amended) at a category link and a pure genre link. -/
theorem claim7_taxonomy_exclusions_witness :
    extractAnimeCard categoryLi = none ∧ extractAnimeCard genreOnlyLi = none := by
  refine ⟨?_, ?_⟩
  · exact claim7_taxonomy_exclusions.1 categoryLi (by decide)
  · exact claim7_taxonomy_exclusions.2.2.2.1 genreOnlyLi (by decide) (by decide)
      (by decide) (by decide)

lemma catStep_inv (acc : List Card × List String) (li : Dom)
    (h1 : (acc.1.map (fun c => c.id)).Nodup) (h2 : ∀ c ∈ acc.1, c.id ∈ acc.2) :
    (((catStep acc li).1.map (fun c => c.id)).Nodup ∧
      ∀ c ∈ (catStep acc li).1, c.id ∈ (catStep acc li).2) := by
  unfold catStep
  cases hcard : extractAnimeCard li with
  | none => exact ⟨h1, h2⟩
  | some a =>
    dsimp only
    split
    · rename_i hcond
      have hcond2 : a.id ≠ "" ∧ a.id ∉ acc.2 := by simpa using hcond
      have hnotin : a.id ∉ acc.2 := hcond2.2
      constructor
      · have : (acc.1 ++ [a]).map (fun c => c.id) =
            acc.1.map (fun c => c.id) ++ a.id :: [] := by simp
        rw [this, List.nodup_middle]
        refine List.Nodup.cons ?_ (by simpa using h1)
        intro hmem
        have hmem' : a.id ∈ acc.1.map (fun c => c.id) := by simpa using hmem
        obtain ⟨c, hc, hcid⟩ := List.mem_map.mp hmem'
        exact hnotin (hcid ▸ h2 c hc)
      · intro c hc
        rcases List.mem_append.mp hc with h | h
        · exact List.mem_cons_of_mem _ (h2 c h)
        · simp only [List.mem_singleton] at h
          subst h
          exact List.mem_cons_self _ _
    · exact ⟨h1, h2⟩

lemma catFold_nodup (lis : List Dom) : ∀ acc : List Card × List String,
    (acc.1.map (fun c => c.id)).Nodup → (∀ c ∈ acc.1, c.id ∈ acc.2) →
    (((lis.foldl catStep acc).1.map (fun c => c.id)).Nodup ∧
      ∀ c ∈ (lis.foldl catStep acc).1, c.id ∈ (lis.foldl catStep acc).2) := by
  induction lis with
  | nil => intro acc h1 h2; exact ⟨h1, h2⟩
  | cons li rest ih =>
    intro acc h1 h2
    rw [List.foldl_cons]
    obtain ⟨g1, g2⟩ := catStep_inv acc li h1 h2
    exact ih (catStep acc li) g1 g2

lemma catFold_prefix (lis : List Dom) : ∀ acc : List Card × List String,
    ∃ t, (lis.foldl catStep acc).1 = acc.1 ++ t := by
  induction lis with
  | nil => intro acc; exact ⟨[], by simp⟩
  | cons li rest ih =>
    intro acc
    obtain ⟨t, ht⟩ := ih (catStep acc li)
    rw [List.foldl_cons, ht]
    unfold catStep
    cases hcard : extractAnimeCard li with
    | none => exact ⟨t, rfl⟩
    | some a =>
      dsimp only
      split
      · exact ⟨[a] ++ t, by simp⟩
      · exact ⟨t, rfl⟩

lemma homeStep_nodup (acc : HomeAcc) (li : Dom)
    (hkey : ∀ c : Card, extractAnimeCard li = some c → homeDedupKey li = some c.id)
    (h1 : (((acc.latestSeries ++ acc.latestMovies).map (fun c => c.id))).Nodup)
    (h2 : ∀ c ∈ acc.latestSeries ++ acc.latestMovies, c.id ∈ acc.processed) :
    ((((homeStep acc li).latestSeries ++ (homeStep acc li).latestMovies).map
        (fun c => c.id))).Nodup ∧
    ∀ c ∈ (homeStep acc li).latestSeries ++ (homeStep acc li).latestMovies,
        c.id ∈ (homeStep acc li).processed := by
  unfold homeStep
  cases hlink : (List.find? (fun d => isAnchor d && classHasWord d "lnk-blk")
      (descendantsD li)).bind (fun l => attrF l "href") with
  | none => simp only [hlink]; exact ⟨h1, h2⟩
  | some url =>
    simp only [hlink]
    split
    · exact ⟨h1, h2⟩
    · rename_i hcond
      have hcond' : ¬(lastSegOf url = "") ∧ lastSegOf url ∉ acc.processed := by
        simpa [not_or] using hcond
      have hmono : ∀ c ∈ acc.latestSeries ++ acc.latestMovies,
          c.id ∈ lastSegOf url :: acc.processed :=
        fun c hc => List.mem_cons_of_mem _ (h2 c hc)
      cases hcard : extractAnimeCard li with
      | none => simp only [hcard]; exact ⟨h1, hmono⟩
      | some anime =>
        have hid : anime.id = lastSegOf url := by
          have hk := hkey anime hcard
          unfold homeDedupKey at hk
          rw [hlink] at hk
          simpa using hk.symm
        have hnotin : anime.id ∉ (acc.latestSeries ++ acc.latestMovies).map
            (fun c => c.id) := by
          intro hmem
          obtain ⟨c, hc, hcid⟩ := List.mem_map.mp hmem
          exact hcond'.2 (hid ▸ hcid ▸ h2 c hc)
        simp only [hcard]
        split_ifs with hAid hSer hLen hMov hLen2
        · exact ⟨h1, hmono⟩
        · -- push into latestSeries
          constructor
          · have : ((acc.latestSeries ++ [anime]) ++ acc.latestMovies).map
                (fun c => c.id) =
                acc.latestSeries.map (fun c => c.id) ++ anime.id ::
                  acc.latestMovies.map (fun c => c.id) := by simp
            rw [this, List.nodup_middle]
            refine List.Nodup.cons ?_ (by simpa using h1)
            intro hmem
            exact hnotin (by simpa using hmem)
          · intro c hc
            rcases List.mem_append.mp hc with h | h
            · rcases List.mem_append.mp h with h' | h'
              · exact hmono c (List.mem_append.mpr (Or.inl h'))
              · simp only [List.mem_singleton] at h'
                subst h'
                rw [hid]
                exact List.mem_cons_self _ _
            · exact hmono c (List.mem_append.mpr (Or.inr h))
        · exact ⟨h1, hmono⟩
        · -- push into latestMovies
          constructor
          · have : (acc.latestSeries ++ (acc.latestMovies ++ [anime])).map
                (fun c => c.id) =
                (acc.latestSeries ++ acc.latestMovies).map (fun c => c.id) ++
                  anime.id :: [] := by simp
            rw [this, List.nodup_middle]
            exact List.Nodup.cons (by simpa using hnotin) (by simpa using h1)
          · intro c hc
            rcases List.mem_append.mp hc with h | h
            · exact hmono c (List.mem_append.mpr (Or.inl h))
            · rcases List.mem_append.mp h with h' | h'
              · exact hmono c (List.mem_append.mpr (Or.inr h'))
              · simp only [List.mem_singleton] at h'
                subst h'
                rw [hid]
                exact List.mem_cons_self _ _
        · exact ⟨h1, hmono⟩
        · exact ⟨h1, hmono⟩

lemma homeFold_nodup (lis : List Dom) : ∀ acc : HomeAcc,
    (∀ li ∈ lis, ∀ c : Card, extractAnimeCard li = some c →
        homeDedupKey li = some c.id) →
    (((acc.latestSeries ++ acc.latestMovies).map (fun c => c.id))).Nodup →
    (∀ c ∈ acc.latestSeries ++ acc.latestMovies, c.id ∈ acc.processed) →
    ((((lis.foldl homeStep acc).latestSeries ++
        (lis.foldl homeStep acc).latestMovies).map (fun c => c.id))).Nodup := by
  induction lis with
  | nil => intro acc _ h1 _; exact h1
  | cons li rest ih =>
    intro acc hkeys h1 h2
    rw [List.foldl_cons]
    obtain ⟨g1, g2⟩ := homeStep_nodup acc li
      (hkeys li (List.mem_cons_self _ _)) h1 h2
    exact ih (homeStep acc li)
      (fun l hl => hkeys l (List.mem_cons_of_mem _ hl)) g1 g2

/-- C5 counterexample: on `dupHomeDoc` the homepage scrape returns two cards
with the same id `dup` in `latestSeries` — the dedup key is the `lnk-blk`
slug, which differs from the card id here. -/
theorem claim5_home_dup_counterexample :
    ((scrapeHomeLists dupHomeDoc).latestSeries.map (fun c => c.id)) = ["dup", "dup"] ∧
    ¬ ((scrapeHomeLists dupHomeDoc).latestSeries.map (fun c => c.id)).Nodup := by
  exact ⟨by decide, by decide⟩

/-- C5 (amended): the category listing extraction never returns two cards with
the same id and the first occurrence wins; the homepage loop de-duplicates on
the `lnk-blk` slug, so its card ids are duplicate-free whenever that slug
agrees with the extracted card's id (but not in general, see the
counterexample). -/
theorem claim5_dedup_invariant :
    (∀ lis : List Dom, ((scrapeCategoryCards lis).map (fun c => c.id)).Nodup) ∧
    (∀ (lis : List Dom) (li : Dom) (c : Card),
        extractAnimeCard li = some c → c.id ≠ "" →
        (scrapeCategoryCards (li :: lis)).head? = some c) ∧
    (∀ lis : List Dom,
        (∀ li ∈ lis, ∀ c : Card, extractAnimeCard li = some c →
            homeDedupKey li = some c.id) →
        (((homeListsFromLis lis).latestSeries ++
            (homeListsFromLis lis).latestMovies).map (fun c => c.id)).Nodup) := by
  refine ⟨?_, ?_, ?_⟩
  · intro lis
    exact (catFold_nodup lis ([], []) (by simp) (by simp)).1
  · intro lis li c hcard hid
    unfold scrapeCategoryCards
    rw [List.foldl_cons]
    have hstep : catStep ([], []) li = ([c], [c.id]) := by
      unfold catStep
      rw [hcard]
      dsimp only
      rw [if_pos (by simp [hid])]
      simp
    obtain ⟨t, ht⟩ := catFold_prefix lis (catStep ([], []) li)
    rw [ht, hstep]
    rfl
  · intro lis hkeys
    exact homeFold_nodup lis ⟨[], [], []⟩ hkeys (by simp) (by simp)

/-- Witness for C5 (amended): the scenario listing has duplicate-free ids and
its head is the first extracted card; a homepage item whose `lnk-blk` slug is
its card id keeps home ids duplicate-free. -/
theorem claim5_dedup_invariant_witness :
    ((scrapeCategoryCards (postLstLis listingScenarioDoc)).map (fun c => c.id)).Nodup ∧
    (scrapeCategoryCards [seriesLi]).head? = some fooCard ∧
    ((((homeListsFromLis [homeGoodLi]).latestSeries ++
        (homeListsFromLis [homeGoodLi]).latestMovies).map (fun c => c.id))).Nodup := by
  refine ⟨claim5_dedup_invariant.1 _, ?_, ?_⟩
  · exact claim5_dedup_invariant.2.1 [] seriesLi fooCard (by decide) (by decide)
  · refine claim5_dedup_invariant.2.2 [homeGoodLi] ?_
    intro li hli c hc
    have hli' : li = homeGoodLi := by simpa using hli
    subst hli'
    have hcard : extractAnimeCard homeGoodLi =
        some ⟨"foo", "Foo", "https://toonstream.love/series/foo/", none, none⟩ := by
      decide
    rw [hcard] at hc
    have hc' : (⟨"foo", "Foo", "https://toonstream.love/series/foo/", none, none⟩ :
        Card) = c := by simpa using hc
    rw [← hc']
    decide

lemma takeDigits_append_sep (c0 : Char) (h : c0.isDigit = false) (ys zs : List Char) :
    takeDigits (ys ++ c0 :: zs) = ((takeDigits ys).1, (takeDigits ys).2 ++ c0 :: zs) := by
  induction ys with
  | nil => simp [takeDigits, h]
  | cons c t ih =>
    by_cases hc : c.isDigit = true
    · simp [takeDigits, hc, ih]
    · simp only [Bool.not_eq_true] at hc
      simp [takeDigits, hc]

lemma matchNxMAt_append_ws (ys zs : List Char) :
    matchNxMAt (ys ++ ' ' :: zs) = matchNxMAt ys := by
  unfold matchNxMAt
  rw [takeDigits_append_sep ' ' (by decide)]
  dsimp only
  by_cases hd : (takeDigits ys).1.isEmpty
  · simp [hd]
  · simp only [hd, Bool.false_eq_true, if_false]
    cases hr : (takeDigits ys).2 with
    | nil =>
      simp only [List.nil_append]
      try dsimp only
      rw [if_neg (show ¬(' ' = 'x') by decide)]
    | cons r rs =>
      dsimp only [List.cons_append]
      by_cases hx : r = 'x'
      · rw [if_pos hx, if_pos hx, takeDigits_append_sep ' ' (by decide)]
      · rw [if_neg hx, if_neg hx]

lemma findNxM_append_ws (ys zs : List Char) :
    findNxM (ys ++ ' ' :: zs) =
      match findNxM ys with
      | some r => some r
      | none => findNxM zs := by
  induction ys with
  | nil =>
    have h0 : matchNxMAt (' ' :: zs) = none := by
      unfold matchNxMAt takeDigits
      simp
    simp only [List.nil_append, findNxM, h0]
  | cons c t ih =>
    have e1 : (c :: t) ++ ' ' :: zs = c :: (t ++ ' ' :: zs) := rfl
    have e2 : matchNxMAt (c :: (t ++ ' ' :: zs)) = matchNxMAt (c :: t) := by
      rw [show c :: (t ++ ' ' :: zs) = (c :: t) ++ ' ' :: zs from rfl, matchNxMAt_append_ws]
    have e3 : findNxM (c :: t) =
        match matchNxMAt (c :: t) with
        | some r => some r
        | none => findNxM t := rfl
    rw [e1]
    show (match matchNxMAt (c :: (t ++ ' ' :: zs)) with
      | some r => some r
      | none => findNxM (t ++ ' ' :: zs)) = _
    rw [e2, ih, e3]
    cases matchNxMAt (c :: t) with
    | none => rfl
    | some r => rfl

lemma strFindNxM_concat_none (t i : String) (h1 : strFindNxM t = none)
    (h2 : strFindNxM i = none) : strFindNxM (t ++ " " ++ i) = none := by
  unfold strFindNxM at h1 h2 ⊢
  have hl : (t ++ " " ++ i).toList = t.toList ++ ' ' :: i.toList := by
    simp [String.toList]
  rw [hl, findNxM_append_ws, h1, h2]

/-- C9: an extracted episode's season and episode are the two parsed groups of
the first `(\d+)x(\d+)` match over the concatenation of the raw title and the
id (the source inserts a single space between them), and both are null when
neither the title nor the id contains the pattern. -/
theorem claim9_episode_number_parsing :
    (∀ (node : Dom) (ep : Episode), extractEpisodeInfo node = some ep →
        ep.season = (strFindNxM (epRawTitle node ++ " " ++
            lastSegOf (epRawUrl node))).map (fun p => p.1) ∧
        ep.episode = (strFindNxM (epRawTitle node ++ " " ++
            lastSegOf (epRawUrl node))).map (fun p => p.2)) ∧
    (∀ (node : Dom) (ep : Episode), extractEpisodeInfo node = some ep →
        strFindNxM (epRawTitle node) = none →
        strFindNxM (lastSegOf (epRawUrl node)) = none →
        ep.season = none ∧ ep.episode = none) := by
  have main : ∀ (node : Dom) (ep : Episode), extractEpisodeInfo node = some ep →
      ep.season = (strFindNxM (epRawTitle node ++ " " ++
          lastSegOf (epRawUrl node))).map (fun p => p.1) ∧
      ep.episode = (strFindNxM (epRawTitle node ++ " " ++
          lastSegOf (epRawUrl node))).map (fun p => p.2) := by
    intro node ep h
    unfold extractEpisodeInfo at h
    dsimp only at h
    split at h
    · exact absurd h (by simp)
    · rw [← Option.some.inj h]
      exact ⟨rfl, rfl⟩
  refine ⟨main, ?_⟩
  intro node ep h h1 h2
  obtain ⟨hs, he⟩ := main node ep h
  rw [strFindNxM_concat_none _ _ h1 h2] at hs he
  exact ⟨by simpa using hs, by simpa using he⟩

/-- Witness for C9 at the spec's examples: title `Naruto 1x17`, id
`naruto-1x17`, and a node with no `NxM` pattern. -/
theorem claim9_episode_number_parsing_witness :
    extractEpisodeInfo epNodeTitle =
      some ⟨"foo", "Naruto 1x17", "https://toonstream.love/episode/foo/",
        some 1, some 17, none⟩ ∧
    extractEpisodeInfo epNodeId =
      some ⟨"naruto-1x17", "naruto 1x17",
        "https://toonstream.love/episode/naruto-1x17/", some 1, some 17, none⟩ ∧
    (∀ ep : Episode, extractEpisodeInfo epNodePlain = some ep →
        ep.season = none ∧ ep.episode = none) ∧
    (∃ ep : Episode, extractEpisodeInfo epNodePlain = some ep) := by
  refine ⟨by decide, by decide, ?_, ?_⟩
  · intro ep h
    exact claim9_episode_number_parsing.2 epNodePlain ep h (by decide) (by decide)
  · exact ⟨_, rfl⟩

lemma strHas_toList (pat u : String) : strHas pat u = listHas pat.toList u.toList := rfl

lemma toList_append (a b : String) : (a ++ b).toList = a.toList ++ b.toList := by
  simp [String.toList]

lemma listStarts_append_intro {p q l : List Char} (h1 : listStarts p l = true)
    (h2 : listStarts q (l.drop p.length) = true) :
    listStarts (p ++ q) l = true := by
  induction p generalizing l with
  | nil => simpa using h2
  | cons a p ih =>
    cases l with
    | nil => simp [listStarts] at h1
    | cons b t =>
      simp only [listStarts, Bool.and_eq_true] at h1
      simp only [List.cons_append, listStarts, Bool.and_eq_true]
      exact ⟨h1.1, ih h1.2 (by simpa using h2)⟩

lemma listStarts_self_append (s t : List Char) : listStarts s (s ++ t) = true := by
  induction s with
  | nil => simp [listStarts]
  | cons c cs ih => simp [listStarts, ih]

lemma listHas_of_starts {p l : List Char} (h : listStarts p l = true) :
    listHas p l = true := by
  cases l with
  | nil => simpa [listHas] using h
  | cons c t => simp [listHas, h]

lemma listHas_cons_of_tail {p : List Char} {c : Char} {t : List Char}
    (h : listHas p t = true) : listHas p (c :: t) = true := by
  simp [listHas, h]

lemma listStarts_append_left {q : List Char} :
    ∀ (p l : List Char), listStarts (p ++ q) l = true → listStarts p l = true
  | [], _, _ => by simp [listStarts]
  | a :: ps, [], hh => by simp [listStarts] at hh
  | a :: ps, b :: t, hh => by
    simp only [List.cons_append, listStarts, Bool.and_eq_true] at hh
    simp only [listStarts, Bool.and_eq_true]
    exact ⟨hh.1, listStarts_append_left ps t hh.2⟩

lemma listHas_append_left {p q l : List Char} (h : listHas (p ++ q) l = true) :
    listHas p l = true := by
  induction l with
  | nil => simp only [listHas] at h ⊢; exact listStarts_append_left p [] h
  | cons c t ih =>
    simp only [listHas, Bool.or_eq_true] at h ⊢
    rcases h with h | h
    · exact Or.inl (listStarts_append_left p (c :: t) h)
    · exact Or.inr (ih h)

lemma takeSeg_concat (r : List Char) : (takeSeg r).1 ++ (takeSeg r).2 = r := by
  induction r with
  | nil => simp [takeSeg]
  | cons c t ih =>
    by_cases hc : c = '/'
    · simp [takeSeg, hc]
    · simp only [takeSeg]
      rw [if_neg (by simpa using hc)]
      simpa using ih

lemma takeSeg_no_slash (r : List Char) : ∀ c ∈ (takeSeg r).1, c ≠ '/' := by
  induction r with
  | nil => simp [takeSeg]
  | cons c t ih =>
    by_cases hc : c = '/'
    · simp [takeSeg, hc]
    · simp only [takeSeg]
      rw [if_neg (by simpa using hc)]
      intro x hx
      simp only [List.mem_cons] at hx
      rcases hx with h | h
      · subst h; simpa using hc
      · exact ih x h

lemma animeIdAt_spec {l s : List Char} (h : animeIdAt l = some s) :
    (listStarts ("/series/".toList ++ s) l = true ∨
     listStarts ("/movies/".toList ++ s) l = true ∨
     listStarts ("/movie/".toList ++ s) l = true) ∧
    s ≠ [] ∧ ∀ c ∈ s, c ≠ '/' := by
  unfold animeIdAt at h
  cases hm : matchContentPatAt l with
  | none => rw [hm] at h; simp at h
  | some r =>
    rw [hm] at h
    dsimp only at h
    split at h
    · simp at h
    · rename_i hne
      have hs : s = (takeSeg r).1 := (Option.some.inj h).symm
      have hstart : listStarts s r = true := by
        rw [hs]
        have hsa := listStarts_self_append (takeSeg r).1 (takeSeg r).2
        rwa [takeSeg_concat r] at hsa
      have hpat : (listStarts "/series/".toList l = true ∧ r = l.drop 8) ∨
          (listStarts "/movies/".toList l = true ∧ r = l.drop 8) ∨
          (listStarts "/movie/".toList l = true ∧ r = l.drop 7) := by
        unfold matchContentPatAt at hm
        split at hm
        · exact Or.inl ⟨by assumption, (Option.some.inj hm).symm⟩
        · split at hm
          · exact Or.inr (Or.inl ⟨by assumption, (Option.some.inj hm).symm⟩)
          · split at hm
            · exact Or.inr (Or.inr ⟨by assumption, (Option.some.inj hm).symm⟩)
            · simp at hm
      refine ⟨?_, by simpa [hs] using hne, by rw [hs]; exact takeSeg_no_slash r⟩
      rcases hpat with ⟨hst, hr⟩ | ⟨hst, hr⟩ | ⟨hst, hr⟩
      · refine Or.inl (listStarts_append_intro hst ?_)
        rw [show ("/series/".toList).length = 8 from rfl, ← hr]
        exact hstart
      · refine Or.inr (Or.inl (listStarts_append_intro hst ?_))
        rw [show ("/movies/".toList).length = 8 from rfl, ← hr]
        exact hstart
      · refine Or.inr (Or.inr (listStarts_append_intro hst ?_))
        rw [show ("/movie/".toList).length = 7 from rfl, ← hr]
        exact hstart

lemma findAnimeId_spec {l s : List Char} (h : findAnimeId l = some s) :
    (listHas ("/series/".toList ++ s) l = true ∨
     listHas ("/movies/".toList ++ s) l = true ∨
     listHas ("/movie/".toList ++ s) l = true) ∧
    s ≠ [] ∧ ∀ c ∈ s, c ≠ '/' := by
  induction l with
  | nil => simp [findAnimeId] at h
  | cons c t ih =>
    rw [findAnimeId] at h
    cases hA : animeIdAt (c :: t) with
    | some s0 =>
      rw [hA] at h
      have hs : s0 = s := Option.some.inj h
      subst hs
      obtain ⟨hpat, hne, hns⟩ := animeIdAt_spec hA
      refine ⟨?_, hne, hns⟩
      rcases hpat with h' | h' | h'
      · exact Or.inl (listHas_of_starts h')
      · exact Or.inr (Or.inl (listHas_of_starts h'))
      · exact Or.inr (Or.inr (listHas_of_starts h'))
    | none =>
      rw [hA] at h
      obtain ⟨hpat, hne, hns⟩ := ih h
      refine ⟨?_, hne, hns⟩
      rcases hpat with h' | h' | h'
      · exact Or.inl (listHas_cons_of_tail h')
      · exact Or.inr (Or.inl (listHas_cons_of_tail h'))
      · exact Or.inr (Or.inr (listHas_cons_of_tail h'))

lemma listStarts_eq_append {p l : List Char} (h : listStarts p l = true) :
    l = p ++ l.drop p.length := by
  induction p generalizing l with
  | nil => simp
  | cons a ps ih =>
    cases l with
    | nil => simp [listStarts] at h
    | cons b t =>
      simp only [listStarts, Bool.and_eq_true, beq_iff_eq] at h
      simp only [List.length_cons, List.cons_append, List.drop_succ_cons]
      rw [h.1]
      exact congrArg (fun x => b :: x) (ih h.2)

lemma takeSeg_rest_slash (r : List Char) :
    (takeSeg r).2 = [] ∨ ∃ t, (takeSeg r).2 = '/' :: t := by
  induction r with
  | nil => exact Or.inl rfl
  | cons c t ih =>
    by_cases hc : (c == '/') = true
    · right
      refine ⟨t, ?_⟩
      have hce : c = '/' := by simpa using hc
      simp [takeSeg, hc, hce]
    · simpa [takeSeg, hc] using ih

lemma matchContentPatAt_series (rest : List Char) :
    matchContentPatAt ("/series/".toList ++ rest) = some rest := by
  unfold matchContentPatAt
  rw [if_pos (listStarts_self_append _ _)]
  rfl

lemma matchContentPatAt_movies (rest : List Char) :
    matchContentPatAt ("/movies/".toList ++ rest) = some rest := by
  unfold matchContentPatAt
  rw [if_neg (by
      rw [show listStarts "/series/".toList ("/movies/".toList ++ rest) = false
        from rfl]
      simp),
    if_pos (listStarts_self_append _ _)]
  rfl

lemma matchContentPatAt_movie (rest : List Char) :
    matchContentPatAt ("/movie/".toList ++ rest) = some rest := by
  unfold matchContentPatAt
  rw [if_neg (by
      rw [show listStarts "/series/".toList ("/movie/".toList ++ rest) = false
        from rfl]
      simp),
    if_neg (by
      rw [show listStarts "/movies/".toList ("/movie/".toList ++ rest) = false
        from rfl]
      simp),
    if_pos (listStarts_self_append _ _)]
  rfl

lemma animeIdAt_pattern_isSome (pat : String)
    (hpat : pat = "/series/" ∨ pat = "/movies/" ∨ pat = "/movie/")
    (seg post : List Char) (hne : seg ≠ []) (hs : ∀ c ∈ seg, c ≠ '/') :
    animeIdAt (pat.toList ++ (seg ++ post)) ≠ none := by
  have hm : matchContentPatAt (pat.toList ++ (seg ++ post)) = some (seg ++ post) := by
    rcases hpat with h | h | h <;> subst h
    · exact matchContentPatAt_series _
    · exact matchContentPatAt_movies _
    · exact matchContentPatAt_movie _
  unfold animeIdAt
  rw [hm]
  dsimp only
  cases seg with
  | nil => exact absurd rfl hne
  | cons c cs =>
    have hc : ¬((c == '/') = true) := by
      simp only [beq_iff_eq]
      exact hs c (List.mem_cons_self _ _)
    rw [show ((c :: cs) ++ post) = c :: (cs ++ post) from rfl]
    simp only [takeSeg]
    rw [if_neg hc]
    simp

lemma findAnimeId_isSome_of_suffix (pre : List Char) {l2 : List Char}
    (h : animeIdAt l2 ≠ none) : findAnimeId (pre ++ l2) ≠ none := by
  induction pre with
  | nil =>
    cases l2 with
    | nil => exact absurd rfl h
    | cons c t =>
      simp only [List.nil_append, findAnimeId]
      cases hA : animeIdAt (c :: t) with
      | none => exact absurd hA h
      | some s => simp
  | cons p ps ih =>
    simp only [List.cons_append, findAnimeId]
    cases hA : animeIdAt (p :: (ps ++ l2)) with
    | some s => simp
    | none => exact ih

lemma animeIdAt_decomp {l s : List Char} (h : animeIdAt l = some s) :
    ∃ (pat : String) (post : List Char),
      (pat = "/series/" ∨ pat = "/movies/" ∨ pat = "/movie/") ∧
      l = pat.toList ++ s ++ post ∧
      (post = [] ∨ ∃ t, post = '/' :: t) := by
  unfold animeIdAt at h
  cases hm : matchContentPatAt l with
  | none => rw [hm] at h; simp at h
  | some r =>
    rw [hm] at h
    dsimp only at h
    split at h
    · simp at h
    · have hs : s = (takeSeg r).1 := (Option.some.inj h).symm
      have hr : (takeSeg r).1 ++ (takeSeg r).2 = r := takeSeg_concat r
      have hpat : ∃ pat : String,
          (pat = "/series/" ∨ pat = "/movies/" ∨ pat = "/movie/") ∧
          listStarts pat.toList l = true ∧ r = l.drop pat.toList.length := by
        unfold matchContentPatAt at hm
        split at hm
        · exact ⟨"/series/", Or.inl rfl, by assumption, (Option.some.inj hm).symm⟩
        · split at hm
          · exact ⟨"/movies/", Or.inr (Or.inl rfl), by assumption,
              (Option.some.inj hm).symm⟩
          · split at hm
            · exact ⟨"/movie/", Or.inr (Or.inr rfl), by assumption,
                (Option.some.inj hm).symm⟩
            · simp at hm
      obtain ⟨pat, hp3, hstart, hreq⟩ := hpat
      refine ⟨pat, (takeSeg r).2, hp3, ?_, takeSeg_rest_slash r⟩
      rw [hs]
      calc l = pat.toList ++ l.drop pat.toList.length := listStarts_eq_append hstart
        _ = pat.toList ++ r := by rw [← hreq]
        _ = pat.toList ++ ((takeSeg r).1 ++ (takeSeg r).2) := by rw [hr]
        _ = pat.toList ++ (takeSeg r).1 ++ (takeSeg r).2 := by
              rw [List.append_assoc]

lemma findAnimeId_decomp {l s : List Char} (h : findAnimeId l = some s) :
    ∃ (pat : String) (pre post : List Char),
      (pat = "/series/" ∨ pat = "/movies/" ∨ pat = "/movie/") ∧
      l = pre ++ pat.toList ++ s ++ post ∧
      (post = [] ∨ ∃ t, post = '/' :: t) := by
  induction l with
  | nil => simp [findAnimeId] at h
  | cons c t ih =>
    rw [findAnimeId] at h
    cases hA : animeIdAt (c :: t) with
    | some s0 =>
      rw [hA] at h
      have hss : s0 = s := Option.some.inj h
      subst hss
      obtain ⟨pat, post, h3, heq, hp⟩ := animeIdAt_decomp hA
      exact ⟨pat, [], post, h3, by simpa using heq, hp⟩
    | none =>
      rw [hA] at h
      obtain ⟨pat, pre, post, h3, heq, hp⟩ := ih h
      exact ⟨pat, c :: pre, post, h3, by simp [heq], hp⟩

/-- C2 counterexample: `/cartoons/` URLs yield no id — the regex alternation
covers only `series` and `movies?`. -/
theorem claim2_cartoons_counterexample :
    extractAnimeId (some "/cartoons/foo/") = none ∧
    extractAnimeId (some "/cartoons/foo/") ≠ some "foo" := by
  exact ⟨by decide, by decide⟩

/-- C2 (amended): `extractAnimeId` returns the path segment following
`/series/`, `/movies/` or `/movie/` — but not `/cartoons/` — and null when
none of those three patterns occurs: a URL containing none of the three
patterns maps to null; whenever one of the patterns occurs followed by a
non-empty slash-free segment the function returns a non-null id; and every
returned id is a non-empty slash-free *maximal* segment occurring immediately
after one of the patterns (the decomposition's remainder is empty or starts
with `/`, so the id is the full segment, not a prefix of it). -/
theorem claim2_extractAnimeId :
    (∀ u : String, strHas "/series/" u = false → strHas "/movies/" u = false →
        strHas "/movie/" u = false → extractAnimeId (some u) = none) ∧
    (∀ u s : String, extractAnimeId (some u) = some s →
        s ≠ "" ∧ (∀ c ∈ s.toList, c ≠ '/') ∧
        (strHas ("/series/" ++ s) u = true ∨ strHas ("/movies/" ++ s) u = true ∨
         strHas ("/movie/" ++ s) u = true) ∧
        ∃ (pat : String) (pre post : List Char),
          (pat = "/series/" ∨ pat = "/movies/" ∨ pat = "/movie/") ∧
          u.toList = pre ++ pat.toList ++ s.toList ++ post ∧
          (post = [] ∨ ∃ t, post = '/' :: t)) ∧
    (∀ (pat : String) (pre seg post : List Char),
        (pat = "/series/" ∨ pat = "/movies/" ∨ pat = "/movie/") →
        seg ≠ [] → (∀ c ∈ seg, c ≠ '/') →
        ∀ u : String, u.toList = pre ++ pat.toList ++ seg ++ post →
        ∃ s : String, extractAnimeId (some u) = some s ∧ s ≠ "") ∧
    extractAnimeId (some "/series/foo/") = some "foo" ∧
    extractAnimeId (some "/movies/bar/") = some "bar" ∧
    extractAnimeId (some "/movie/baz/tail") = some "baz" ∧
    extractAnimeId none = none ∧
    extractAnimeId (some "/cartoons/foo/") = none := by
  have core : ∀ u s : String, extractAnimeId (some u) = some s →
      s ≠ "" ∧ (∀ c ∈ s.toList, c ≠ '/') ∧
      (strHas ("/series/" ++ s) u = true ∨ strHas ("/movies/" ++ s) u = true ∨
       strHas ("/movie/" ++ s) u = true) := by
    intro u s h
    unfold extractAnimeId at h
    dsimp only at h
    by_cases hu : u = ""
    · rw [if_pos hu] at h; simp at h
    · rw [if_neg hu] at h
      cases hf : findAnimeId u.toList with
      | none => rw [hf] at h; simp at h
      | some l =>
        rw [hf] at h
        simp only [Option.map_some', Option.some.injEq] at h
        obtain ⟨hpat, hne, hns⟩ := findAnimeId_spec hf
        have hls : s.toList = l := by rw [← h]; rfl
        refine ⟨?_, by rw [hls]; exact hns, ?_⟩
        · intro he
          rw [he] at hls
          exact hne hls.symm
        · have happ : ∀ pre : String, (pre ++ s).toList = pre.toList ++ l := by
            intro pre
            rw [toList_append, hls]
          rw [strHas_toList, strHas_toList, strHas_toList,
            happ "/series/", happ "/movies/", happ "/movie/"]
          exact hpat
  have hdec : ∀ u s : String, extractAnimeId (some u) = some s →
      ∃ (pat : String) (pre post : List Char),
        (pat = "/series/" ∨ pat = "/movies/" ∨ pat = "/movie/") ∧
        u.toList = pre ++ pat.toList ++ s.toList ++ post ∧
        (post = [] ∨ ∃ t, post = '/' :: t) := by
    intro u s h
    unfold extractAnimeId at h
    dsimp only at h
    by_cases hu : u = ""
    · rw [if_pos hu] at h; simp at h
    · rw [if_neg hu] at h
      cases hf : findAnimeId u.toList with
      | none => rw [hf] at h; simp at h
      | some l =>
        rw [hf] at h
        simp only [Option.map_some', Option.some.injEq] at h
        obtain ⟨pat, pre, post, h3, heq, hp⟩ := findAnimeId_decomp hf
        refine ⟨pat, pre, post, h3, ?_, hp⟩
        have hsl : s.toList = l := by rw [← h]; rfl
        rw [hsl]
        exact heq
  have hcmp : ∀ (pat : String) (pre seg post : List Char),
      (pat = "/series/" ∨ pat = "/movies/" ∨ pat = "/movie/") →
      seg ≠ [] → (∀ c ∈ seg, c ≠ '/') →
      ∀ u : String, u.toList = pre ++ pat.toList ++ seg ++ post →
      ∃ s : String, extractAnimeId (some u) = some s ∧ s ≠ "" := by
    intro pat pre seg post h3 hne hsf u hu
    have hA : animeIdAt (pat.toList ++ (seg ++ post)) ≠ none :=
      animeIdAt_pattern_isSome pat h3 seg post hne hsf
    have hfind : findAnimeId u.toList ≠ none := by
      rw [hu, show pre ++ pat.toList ++ seg ++ post =
          pre ++ (pat.toList ++ (seg ++ post)) from by simp [List.append_assoc]]
      exact findAnimeId_isSome_of_suffix pre hA
    have hu0 : u ≠ "" := by
      intro he
      rw [he] at hu
      have hlen := congrArg List.length hu
      simp only [List.length_append] at hlen
      have hseg : seg.length ≠ 0 := by
        simpa [List.length_eq_zero] using hne
      have h0 : ("" : String).toList.length = 0 := rfl
      omega
    cases hf : findAnimeId u.toList with
    | none => exact absurd hf hfind
    | some l =>
      obtain ⟨-, hlne, -⟩ := findAnimeId_spec hf
      refine ⟨⟨l⟩, ?_, ?_⟩
      · unfold extractAnimeId
        dsimp only
        rw [if_neg hu0, hf]
        rfl
      · intro he
        have := congrArg String.data he
        exact hlne (by simpa using this)
  refine ⟨?_,
    (fun u s h => ⟨(core u s h).1, (core u s h).2.1, (core u s h).2.2, hdec u s h⟩),
    hcmp, by decide, by decide, by decide, rfl, by decide⟩
  intro u h1 h2 h3
  cases hr : extractAnimeId (some u) with
  | none => rfl
  | some s =>
    obtain ⟨_, _, hpat⟩ := core u s hr
    rcases hpat with h | h | h
    · rw [strHas_toList, toList_append] at h
      have h4 := listHas_append_left h
      rw [strHas_toList] at h1
      rw [h4] at h1
      exact Bool.noConfusion h1
    · rw [strHas_toList, toList_append] at h
      have h4 := listHas_append_left h
      rw [strHas_toList] at h2
      rw [h4] at h2
      exact Bool.noConfusion h2
    · rw [strHas_toList, toList_append] at h
      have h4 := listHas_append_left h
      rw [strHas_toList] at h3
      rw [h4] at h3
      exact Bool.noConfusion h3

/-- Witness for C2 (amended): a URL with none of the three patterns maps to
null, and a URL containing `/series/` followed by the non-empty segment `abc`
yields a non-null id (which is in fact the full segment `abc`). -/
theorem claim2_extractAnimeId_witness :
    extractAnimeId (some "https://toonstream.love/cartoons/foo/") = none ∧
    (∃ s : String, extractAnimeId (some "x/series/abc/tail") = some s ∧ s ≠ "") ∧
    extractAnimeId (some "x/series/abc/tail") = some "abc" := by
  refine ⟨?_, ?_, by decide⟩
  · exact claim2_extractAnimeId.1 "https://toonstream.love/cartoons/foo/"
      (by decide) (by decide) (by decide)
  · exact claim2_extractAnimeId.2.2.1 "/series/" "x".toList "abc".toList
      "/tail".toList (Or.inl rfl) (by decide) (by decide)
      "x/series/abc/tail" (by decide)

/-- C4 counterexample: for the non-episode-shaped id `m1`, `/series/m1/`
returns a 404 and `/movies/m1/` fails with a *non-404* server error, yet the
resolver probes a third shape (`/episode/m1/`) and succeeds — the non-404
abort applies only to the first probe, not inside the fallback chain. -/
theorem claim4_non404_fallthrough_counterexample :
    (scrapeWithFetchProbe "m1" streamNet500).1 =
      ["/series/m1/", "/movies/m1/", "/episode/m1/"] ∧
    (scrapeWithFetchProbe "m1" streamNet500).2 = Except.ok ("/episode/m1/", "EPHTML") ∧
    streamNet500 "/movies/m1/" =
      Except.error "Failed to fetch page: HTTP error! status: 500" ∧
    is404 "Failed to fetch page: HTTP error! status: 500" = false := by
  exact ⟨by decide, by decide, by decide, by decide⟩

/-- C4 (amended): the first probed shape is `/episode/` for episode-slug ids
and `/series/` otherwise; a non-404 error *of the first probe* aborts at once;
a 404 of the first probe enters the fallback over the remaining shapes
(`/series/` then `/movies/` for episode-shaped ids, `/movies/` then
`/episode/` otherwise), stopping at the first success — but inside the
fallback *any* error (404 or not) falls through to the next shape, and a fully
failed fallback surfaces the last error. -/
theorem claim4_streaming_probe_order (id : String)
    (f : String → Except String String) :
    (hasEpSuffix id = true →
      (∀ h, f ("/episode/" ++ id ++ "/") = Except.ok h →
        scrapeWithFetchProbe id f =
          (["/episode/" ++ id ++ "/"],
           Except.ok ("/episode/" ++ id ++ "/", h))) ∧
      (∀ e, f ("/episode/" ++ id ++ "/") = Except.error e → is404 e = false →
        scrapeWithFetchProbe id f =
          (["/episode/" ++ id ++ "/"], Except.error e)) ∧
      (∀ e h, f ("/episode/" ++ id ++ "/") = Except.error e → is404 e = true →
        f ("/series/" ++ id ++ "/") = Except.ok h →
        scrapeWithFetchProbe id f =
          (["/episode/" ++ id ++ "/", "/series/" ++ id ++ "/"],
           Except.ok ("/series/" ++ id ++ "/", h))) ∧
      (∀ e e2 h, f ("/episode/" ++ id ++ "/") = Except.error e → is404 e = true →
        f ("/series/" ++ id ++ "/") = Except.error e2 →
        f ("/movies/" ++ id ++ "/") = Except.ok h →
        scrapeWithFetchProbe id f =
          (["/episode/" ++ id ++ "/", "/series/" ++ id ++ "/",
            "/movies/" ++ id ++ "/"],
           Except.ok ("/movies/" ++ id ++ "/", h))) ∧
      (∀ e e2 e3, f ("/episode/" ++ id ++ "/") = Except.error e → is404 e = true →
        f ("/series/" ++ id ++ "/") = Except.error e2 →
        f ("/movies/" ++ id ++ "/") = Except.error e3 →
        scrapeWithFetchProbe id f =
          (["/episode/" ++ id ++ "/", "/series/" ++ id ++ "/",
            "/movies/" ++ id ++ "/"],
           Except.error e3))) ∧
    (hasEpSuffix id = false →
      (∀ h, f ("/series/" ++ id ++ "/") = Except.ok h →
        scrapeWithFetchProbe id f =
          (["/series/" ++ id ++ "/"],
           Except.ok ("/series/" ++ id ++ "/", h))) ∧
      (∀ e, f ("/series/" ++ id ++ "/") = Except.error e → is404 e = false →
        scrapeWithFetchProbe id f =
          (["/series/" ++ id ++ "/"], Except.error e)) ∧
      (∀ e h, f ("/series/" ++ id ++ "/") = Except.error e → is404 e = true →
        f ("/movies/" ++ id ++ "/") = Except.ok h →
        scrapeWithFetchProbe id f =
          (["/series/" ++ id ++ "/", "/movies/" ++ id ++ "/"],
           Except.ok ("/movies/" ++ id ++ "/", h))) ∧
      (∀ e e2 h, f ("/series/" ++ id ++ "/") = Except.error e → is404 e = true →
        f ("/movies/" ++ id ++ "/") = Except.error e2 →
        f ("/episode/" ++ id ++ "/") = Except.ok h →
        scrapeWithFetchProbe id f =
          (["/series/" ++ id ++ "/", "/movies/" ++ id ++ "/",
            "/episode/" ++ id ++ "/"],
           Except.ok ("/episode/" ++ id ++ "/", h))) ∧
      (∀ e e2 e3, f ("/series/" ++ id ++ "/") = Except.error e → is404 e = true →
        f ("/movies/" ++ id ++ "/") = Except.error e2 →
        f ("/episode/" ++ id ++ "/") = Except.error e3 →
        scrapeWithFetchProbe id f =
          (["/series/" ++ id ++ "/", "/movies/" ++ id ++ "/",
            "/episode/" ++ id ++ "/"],
           Except.error e3))) := by
  constructor
  · intro hEp
    refine ⟨?_, ?_, ?_, ?_, ?_⟩
    · intro h hf
      unfold scrapeWithFetchProbe
      simp [hEp, hf]
    · intro e hf h404
      unfold scrapeWithFetchProbe
      simp [hEp, hf, h404]
    · intro e h hf h404 hf2
      unfold scrapeWithFetchProbe
      simp [hEp, hf, h404, hf2]
    · intro e e2 h hf h404 hf2 hf3
      unfold scrapeWithFetchProbe
      simp [hEp, hf, h404, hf2, hf3]
    · intro e e2 e3 hf h404 hf2 hf3
      unfold scrapeWithFetchProbe
      simp [hEp, hf, h404, hf2, hf3]
  · intro hEp
    refine ⟨?_, ?_, ?_, ?_, ?_⟩
    · intro h hf
      unfold scrapeWithFetchProbe
      simp [hEp, hf]
    · intro e hf h404
      unfold scrapeWithFetchProbe
      simp [hEp, hf, h404]
    · intro e h hf h404 hf2
      unfold scrapeWithFetchProbe
      simp [hEp, hf, h404, hf2]
    · intro e e2 h hf h404 hf2 hf3
      unfold scrapeWithFetchProbe
      simp [hEp, hf, h404, hf2, hf3]
    · intro e e2 e3 hf h404 hf2 hf3
      unfold scrapeWithFetchProbe
      simp [hEp, hf, h404, hf2, hf3]

/-- Witness for C4 (amended): an episode-shaped id resolved on the first
probe, and the spec's end-to-end scenario (first shape 404, second succeeds)
driven through the theorem. -/
theorem claim4_streaming_probe_order_witness :
    scrapeWithFetchProbe "show-1x1" streamNetOk =
      (["/episode/show-1x1/"], Except.ok ("/episode/show-1x1/", "EPHTML")) ∧
    scrapeWithFetchProbe "m1" streamNet500 =
      (["/series/m1/", "/movies/m1/", "/episode/m1/"],
       Except.ok ("/episode/m1/", "EPHTML")) := by
  constructor
  · exact ((claim4_streaming_probe_order "show-1x1" streamNetOk).1 (by decide)).1
      "EPHTML" (by decide)
  · exact ((claim4_streaming_probe_order "m1" streamNet500).2 (by decide)).2.2.2.1
      "Failed to fetch page: HTTP error! status: 404"
      "Failed to fetch page: HTTP error! status: 500" "EPHTML"
      (by decide) (by decide) (by decide) (by decide)

/-- C1: the detail scraper's type probing.  With no hint the auto sequence is
series, movies, cartoons: the first success wins (only `movies` is
singularized to `movie`; a successful cartoons probe yields the source's
plural label `cartoons`), a 404 falls through to the next shape, a non-404
error aborts at once with no further probes, and exhaustion yields the
not-found error.  A supplied hint is probed first; a hint success resolves to
the hinted type; a non-404 hint error aborts; a hint 404 falls through to the
*full* auto sequence.  In particular an id that 404s under `/series/` and
succeeds under `/movies/` performs exactly two probe fetches and resolves to
type `movie`. -/
theorem claim1_detail_type_probing (id : String)
    (f : String → Except String String) :
    (∀ h, f ("/series/" ++ id ++ "/") = Except.ok h →
      scrapeAnimeDetailsProbe id none f =
        (["/series/" ++ id ++ "/"], Except.ok ("series", h))) ∧
    (∀ e h, f ("/series/" ++ id ++ "/") = Except.error e → is404 e = true →
      f ("/movies/" ++ id ++ "/") = Except.ok h →
      scrapeAnimeDetailsProbe id none f =
        (["/series/" ++ id ++ "/", "/movies/" ++ id ++ "/"],
         Except.ok ("movie", h)) ∧
      (scrapeAnimeDetailsProbe id none f).1.length = 2) ∧
    (∀ e e2 h, f ("/series/" ++ id ++ "/") = Except.error e → is404 e = true →
      f ("/movies/" ++ id ++ "/") = Except.error e2 → is404 e2 = true →
      f ("/cartoons/" ++ id ++ "/") = Except.ok h →
      scrapeAnimeDetailsProbe id none f =
        (["/series/" ++ id ++ "/", "/movies/" ++ id ++ "/",
          "/cartoons/" ++ id ++ "/"],
         Except.ok ("cartoons", h))) ∧
    (∀ e, f ("/series/" ++ id ++ "/") = Except.error e → is404 e = false →
      scrapeAnimeDetailsProbe id none f =
        (["/series/" ++ id ++ "/"], Except.error e)) ∧
    (∀ e e2, f ("/series/" ++ id ++ "/") = Except.error e → is404 e = true →
      f ("/movies/" ++ id ++ "/") = Except.error e2 → is404 e2 = false →
      scrapeAnimeDetailsProbe id none f =
        (["/series/" ++ id ++ "/", "/movies/" ++ id ++ "/"], Except.error e2)) ∧
    (∀ e e2 e3, f ("/series/" ++ id ++ "/") = Except.error e → is404 e = true →
      f ("/movies/" ++ id ++ "/") = Except.error e2 → is404 e2 = true →
      f ("/cartoons/" ++ id ++ "/") = Except.error e3 → is404 e3 = true →
      scrapeAnimeDetailsProbe id none f =
        (["/series/" ++ id ++ "/", "/movies/" ++ id ++ "/",
          "/cartoons/" ++ id ++ "/"],
         Except.error ("Content not found: " ++ id ++
           " (tried: series, movies, cartoons)"))) ∧
    (∀ ty, (scrapeAnimeDetailsProbe id (some ty) f).1.head? =
      some (detailUrl ty id)) ∧
    (∀ ty h, f (detailUrl ty id) = Except.ok h →
      scrapeAnimeDetailsProbe id (some ty) f =
        ([detailUrl ty id], Except.ok (ty, h))) ∧
    (∀ ty e, f (detailUrl ty id) = Except.error e → is404 e = false →
      scrapeAnimeDetailsProbe id (some ty) f =
        ([detailUrl ty id], Except.error e)) ∧
    (∀ ty e, f (detailUrl ty id) = Except.error e → is404 e = true →
      scrapeAnimeDetailsProbe id (some ty) f =
        (detailUrl ty id :: (autoProbe id f).1, (autoProbe id f).2)) := by
  refine ⟨?_, ?_, ?_, ?_, ?_, ?_, ?_, ?_, ?_, ?_⟩
  · intro h hf
    unfold scrapeAnimeDetailsProbe autoProbe
    simp [hf]
  · intro e h hf h404 hf2
    have : scrapeAnimeDetailsProbe id none f =
        (["/series/" ++ id ++ "/", "/movies/" ++ id ++ "/"],
         Except.ok ("movie", h)) := by
      unfold scrapeAnimeDetailsProbe autoProbe
      simp [hf, h404, hf2]
    exact ⟨this, by rw [this]; rfl⟩
  · intro e e2 h hf h404 hf2 h404b hf3
    unfold scrapeAnimeDetailsProbe autoProbe
    simp [hf, h404, hf2, h404b, hf3]
  · intro e hf h404
    unfold scrapeAnimeDetailsProbe autoProbe
    simp [hf, h404]
  · intro e e2 hf h404 hf2 h404b
    unfold scrapeAnimeDetailsProbe autoProbe
    simp [hf, h404, hf2, h404b]
  · intro e e2 e3 hf h404 hf2 h404b hf3 h404c
    unfold scrapeAnimeDetailsProbe autoProbe
    simp [hf, h404, hf2, h404b, hf3, h404c]
  · intro ty
    unfold scrapeAnimeDetailsProbe
    dsimp only
    cases f (detailUrl ty id) with
    | ok h => rfl
    | error e =>
      dsimp only
      split <;> rfl
  · intro ty h hf
    unfold scrapeAnimeDetailsProbe
    simp [hf]
  · intro ty e hf h404
    unfold scrapeAnimeDetailsProbe
    simp [hf, h404]
  · intro ty e hf h404
    unfold scrapeAnimeDetailsProbe
    simp [hf, h404]

/-- Witness for C1 at the oracle where `/series/naruto/` 404s and
`/movies/naruto/` succeeds: exactly two probes, type `movie`; plus a
hinted probe aborting on a non-404 error. -/
theorem claim1_detail_type_probing_witness :
    scrapeAnimeDetailsProbe "naruto" none detailNet =
      (["/series/naruto/", "/movies/naruto/"], Except.ok ("movie", "MOVIEHTML")) ∧
    (scrapeAnimeDetailsProbe "naruto" none detailNet).1.length = 2 ∧
    scrapeAnimeDetailsProbe "naruto" (some "cartoon") detailNet =
      (["/cartoons/naruto/"],
       Except.error "Failed to fetch page: HTTP error! status: 500") := by
  obtain ⟨h1, h2⟩ := (claim1_detail_type_probing "naruto" detailNet).2.1
    "Failed to fetch page: HTTP error! status: 404" "MOVIEHTML"
    (by decide) (by decide) (by decide)
  refine ⟨h1, h2, ?_⟩
  exact (claim1_detail_type_probing "naruto" detailNet).2.2.2.2.2.2.2.2.1
    "cartoon" "Failed to fetch page: HTTP error! status: 500"
    (by decide) (by decide)

lemma sumSeasons_upsert_le (k : Nat) (v : List Episode) (m : List (Nat × List Episode)) :
    sumSeasons (upsertReplace k v m) ≤ sumSeasons m + v.length := by
  induction m with
  | nil => simp [upsertReplace, sumSeasons]
  | cons p t ih =>
    by_cases hk : p.1 == k
    · obtain ⟨k0, v0⟩ := p
      simp only [upsertReplace, hk, if_pos]
      simp only [sumSeasons, List.map_cons, List.sum_cons] at *
      omega
    · obtain ⟨k0, v0⟩ := p
      simp only [upsertReplace] at *
      rw [if_neg (by simpa using hk)]
      simp only [sumSeasons, List.map_cons, List.sum_cons] at *
      omega

lemma keysOf_upsert (k : Nat) (v : List Episode) (m : List (Nat × List Episode)) :
    ∀ k', k' ∈ (upsertReplace k v m).map (fun p => p.1) →
      k' ∈ m.map (fun p => p.1) ∨ k' = k := by
  induction m with
  | nil => intro k' h; simp [upsertReplace] at h; exact Or.inr h
  | cons p t ih =>
    intro k' h
    obtain ⟨k0, v0⟩ := p
    by_cases hk : k0 == k
    · simp only [upsertReplace, hk, if_pos] at h
      simp only [List.map_cons, List.mem_cons] at h ⊢
      rcases h with h | h
      · exact Or.inr h
      · exact Or.inl (Or.inr h)
    · simp only [upsertReplace] at h
      rw [if_neg (by simpa using hk)] at h
      simp only [List.map_cons, List.mem_cons] at h ⊢
      rcases h with h | h
      · exact Or.inl (Or.inl h)
      · rcases ih k' h with h' | h'
        · exact Or.inl (Or.inr h')
        · exact Or.inr h'

lemma sumSeasons_upsert_notmem (k : Nat) (v : List Episode)
    (m : List (Nat × List Episode)) (h : k ∉ m.map (fun p => p.1)) :
    sumSeasons (upsertReplace k v m) = sumSeasons m + v.length := by
  induction m with
  | nil => simp [upsertReplace, sumSeasons]
  | cons p t ih =>
    obtain ⟨k0, v0⟩ := p
    simp only [List.map_cons, List.mem_cons] at h
    push_neg at h
    have hk : ¬((k0 == k) = true) := by
      intro hb
      simp only [beq_iff_eq] at hb
      exact h.1 hb.symm
    simp only [upsertReplace]
    rw [if_neg hk]
    simp only [sumSeasons, List.map_cons, List.sum_cons] at *
    rw [ih h.2]
    omega

lemma upsertReplace_ne_nil (k : Nat) (v : List Episode)
    (m : List (Nat × List Episode)) : upsertReplace k v m ≠ [] := by
  cases m with
  | nil => simp [upsertReplace]
  | cons p t =>
    obtain ⟨k0, v0⟩ := p
    simp only [upsertReplace]
    split <;> simp

lemma sumSeasons_appendAt (k : Nat) (ep : Episode) (m : List (Nat × List Episode)) :
    sumSeasons (appendAt k ep m) = sumSeasons m + 1 := by
  induction m with
  | nil => simp [appendAt, sumSeasons]
  | cons p t ih =>
    obtain ⟨k0, v0⟩ := p
    by_cases hk : k0 == k
    · simp only [appendAt]
      rw [if_pos hk]
      simp only [sumSeasons, List.map_cons, List.sum_cons, List.length_append,
        List.length_cons, List.length_nil]
      omega
    · simp only [appendAt]
      rw [if_neg (by simpa using hk)]
      simp only [sumSeasons, List.map_cons, List.sum_cons] at *
      omega

lemma seasonsFold_le (ps : List (Nat × List Episode)) :
    ∀ m : List (Nat × List Episode),
      sumSeasons (ps.foldl
          (fun m p => if p.2.isEmpty then m else upsertReplace p.1 p.2 m) m) ≤
        sumSeasons m + (ps.map (fun p => p.2.length)).sum := by
  induction ps with
  | nil => intro m; simp
  | cons p t ih =>
    intro m
    rw [List.foldl_cons]
    refine Nat.le_trans (ih _) ?_
    simp only [List.map_cons, List.sum_cons]
    by_cases he : p.2.isEmpty
    · rw [if_pos he]
      have : p.2.length = 0 := by simpa [List.isEmpty_iff] using he
      omega
    · rw [if_neg he]
      have := sumSeasons_upsert_le p.1 p.2 m
      omega

lemma seasonsFold_eq (ps : List (Nat × List Episode)) :
    ∀ m : List (Nat × List Episode),
      (((ps.filter (fun p => !p.2.isEmpty)).map (fun p => p.1)).Nodup) →
      (∀ k ∈ (ps.filter (fun p => !p.2.isEmpty)).map (fun p => p.1),
          k ∉ m.map (fun p => p.1)) →
      sumSeasons (ps.foldl
          (fun m p => if p.2.isEmpty then m else upsertReplace p.1 p.2 m) m) =
        sumSeasons m + (ps.map (fun p => p.2.length)).sum := by
  induction ps with
  | nil => intro m _ _; simp
  | cons p t ih =>
    intro m hnd hdisj
    rw [List.foldl_cons]
    simp only [List.map_cons, List.sum_cons]
    by_cases he : p.2.isEmpty
    · rw [if_pos he]
      have h0 : p.2.length = 0 := by simpa [List.isEmpty_iff] using he
      have hfe : (p :: t).filter (fun p => !p.2.isEmpty) =
          t.filter (fun p => !p.2.isEmpty) := by
        simp [List.filter_cons, he]
      rw [hfe] at hnd hdisj
      rw [ih m hnd hdisj]
      omega
    · rw [if_neg he]
      have hfe : (p :: t).filter (fun p => !p.2.isEmpty) =
          p :: t.filter (fun p => !p.2.isEmpty) := by
        simp [List.filter_cons, he]
      rw [hfe] at hnd hdisj
      simp only [List.map_cons, List.nodup_cons] at hnd
      have hmem : p.1 ∉ m.map (fun q => q.1) :=
        hdisj p.1 (by simp)
      have hdisj' : ∀ k ∈ (t.filter (fun p => !p.2.isEmpty)).map (fun p => p.1),
          k ∉ (upsertReplace p.1 p.2 m).map (fun q => q.1) := by
        intro k hk hku
        rcases keysOf_upsert p.1 p.2 m k hku with h' | h'
        · exact hdisj k (by simp [hk]) h'
        · exact hnd.1 (h' ▸ hk)
      rw [ih _ hnd.2 hdisj', sumSeasons_upsert_notmem p.1 p.2 m hmem]
      omega

lemma seasonsFold_nil (ps : List (Nat × List Episode)) :
    ∀ m : List (Nat × List Episode),
      ps.foldl (fun m p => if p.2.isEmpty then m else upsertReplace p.1 p.2 m) m = [] →
      m = [] ∧ ∀ p ∈ ps, p.2.isEmpty = true := by
  induction ps with
  | nil => intro m h; exact ⟨h, by simp⟩
  | cons p t ih =>
    intro m h
    rw [List.foldl_cons] at h
    obtain ⟨hstep, hall⟩ := ih _ h
    by_cases he : p.2.isEmpty
    · rw [if_pos he] at hstep
      refine ⟨hstep, ?_⟩
      intro q hq
      rcases List.mem_cons.mp hq with h' | h'
      · subst h'; exact he
      · exact hall q h'
    · rw [if_neg he] at hstep
      exact absurd hstep (upsertReplace_ne_nil _ _ _)

lemma groupFold_sum (eps : List Episode) :
    ∀ m : List (Nat × List Episode),
      sumSeasons (eps.foldl (fun m ep => appendAt (jsSeasonOf ep) ep m) m) =
        sumSeasons m + eps.length := by
  induction eps with
  | nil => intro m; simp
  | cons ep t ih =>
    intro m
    rw [List.foldl_cons, ih, sumSeasons_appendAt]
    simp only [List.length_cons]
    omega

lemma allContainerEpisodes_length (doc : Dom) :
    (allContainerEpisodes doc).length =
      ((seasonContrib doc).map (fun p => p.2.length)).sum := by
  unfold allContainerEpisodes
  rw [List.length_flatten, List.map_map]
  rfl

/-- C6 counterexample: a detail page with two season containers that both
resolve to season 1 — the second overwrites the first in the `seasons`
mapping while both episodes count towards `totalEpisodes`, so the claimed
equality fails. -/
theorem claim6_dup_season_counterexample :
    sumSeasons (scrapeSeasons seasonsDupDoc "series").1 = 1 ∧
    (scrapeSeasons seasonsDupDoc "series").2 = 2 ∧
    (scrapeSeasons seasonsDupDoc "series").2 ≠
      sumSeasons (scrapeSeasons seasonsDupDoc "series").1 := by
  exact ⟨by decide, by decide, by decide⟩

/-- C6 (amended): `totalEpisodes` counts every extracted episode; it is 0
whenever the resolved type is neither series nor cartoon; the sum of the
episode counts over the `seasons` mapping never exceeds it; and the two agree
whenever no two episode-yielding season containers resolve to the same season
number (a later duplicate overwrites the mapping entry while its episodes
still count). -/
theorem claim6_totalEpisodes (doc : Dom) (ty : String) :
    (ty ≠ "series" → ty ≠ "cartoon" → scrapeSeasons doc ty = ([], 0)) ∧
    sumSeasons (scrapeSeasons doc ty).1 ≤ (scrapeSeasons doc ty).2 ∧
    (((((seasonContrib doc).filter (fun p => !p.2.isEmpty)).map
        (fun p => p.1)).Nodup →
      sumSeasons (scrapeSeasons doc ty).1 = (scrapeSeasons doc ty).2)) := by
  by_cases hty : (ty == "series" || ty == "cartoon") = true
  · have hne : ¬(ty ≠ "series" ∧ ty ≠ "cartoon") := by
      intro ⟨h1, h2⟩
      simp only [Bool.or_eq_true, beq_iff_eq] at hty
      rcases hty with h | h
      · exact h1 h
      · exact h2 h
    refine ⟨fun h1 h2 => absurd ⟨h1, h2⟩ hne, ?_, ?_⟩
    · unfold scrapeSeasons
      rw [if_pos hty]
      by_cases hs : (seasonsMap0 doc).isEmpty
      · rw [if_pos hs]
        dsimp only
        obtain ⟨-, hall⟩ := seasonsFold_nil (seasonContrib doc) []
          (by simpa [seasonsMap0, List.isEmpty_iff] using hs)
        have hlen0 : (allContainerEpisodes doc).length = 0 := by
          rw [allContainerEpisodes_length]
          refine List.sum_eq_zero ?_
          intro x hx
          obtain ⟨p, hp, hpx⟩ := List.mem_map.mp hx
          have := hall p hp
          rw [← hpx]
          simpa [List.isEmpty_iff] using this
        rw [List.length_append, hlen0]
        unfold fallbackGrouped
        rw [groupFold_sum]
        simp [sumSeasons]
      · rw [if_neg hs]
        dsimp only
        rw [allContainerEpisodes_length]
        unfold seasonsMap0
        have := seasonsFold_le (seasonContrib doc) []
        simpa [sumSeasons] using this
    · intro hnd
      unfold scrapeSeasons
      rw [if_pos hty]
      by_cases hs : (seasonsMap0 doc).isEmpty
      · rw [if_pos hs]
        dsimp only
        obtain ⟨-, hall⟩ := seasonsFold_nil (seasonContrib doc) []
          (by simpa [seasonsMap0, List.isEmpty_iff] using hs)
        have hlen0 : (allContainerEpisodes doc).length = 0 := by
          rw [allContainerEpisodes_length]
          refine List.sum_eq_zero ?_
          intro x hx
          obtain ⟨p, hp, hpx⟩ := List.mem_map.mp hx
          have := hall p hp
          rw [← hpx]
          simpa [List.isEmpty_iff] using this
        rw [List.length_append, hlen0]
        unfold fallbackGrouped
        rw [groupFold_sum]
        simp [sumSeasons]
      · rw [if_neg hs]
        dsimp only
        rw [allContainerEpisodes_length]
        unfold seasonsMap0
        have := seasonsFold_eq (seasonContrib doc) [] hnd (by simp)
        simpa [sumSeasons] using this
  · have hres : scrapeSeasons doc ty = ([], 0) := by
      unfold scrapeSeasons
      rw [if_neg hty]
    refine ⟨fun _ _ => hres, ?_, fun _ => ?_⟩
    · rw [hres]; simp [sumSeasons]
    · rw [hres]; simp [sumSeasons]

/-- Witness for C6 (amended): distinct season containers give equality
(`sum = total = 2`), and a movie resolves to zero episodes. -/
theorem claim6_totalEpisodes_witness :
    sumSeasons (scrapeSeasons seasonsDistinctDoc "series").1 =
      (scrapeSeasons seasonsDistinctDoc "series").2 ∧
    (scrapeSeasons seasonsDistinctDoc "series").2 = 2 ∧
    scrapeSeasons seasonsDupDoc "movie" = ([], 0) := by
  refine ⟨?_, by decide, ?_⟩
  · exact (claim6_totalEpisodes seasonsDistinctDoc "series").2.2 (by decide)
  · exact (claim6_totalEpisodes seasonsDupDoc "movie").1 (by decide) (by decide)

end Toonstream
